import Mathlib

/-!
Object-recognition tutorial 3 (web): the capture loop, the recognition worker and the switch
from localization to tracking of `samples/or_tutorial_3_web/cpp/main.cpp`.

* The SDK objects (camera, recognition engine, console and web views) are external. Every
  call the program makes on them is appended to one ordered list, `State.calls`; what they
  answer is an input of the step that makes the call.
* The globals of the file and the locals of `run_object_tracking` are fields of `State`.
* The two threads are two program counters; `step` runs one step of one thread. The steps of
  the worker are its `pop`, the body of its loop (lines 81-148, `setTracking` included) and
  the clearing of `is_or_processing_frame`; states are taken between steps.
* A C array handed over as pointer plus count is an `Option (List _)`: `none` is the null
  pointer, and the count is the length of the list.
* The set `get_sample_set` returns is a fresh object. The main thread pushes its address and
  reads the object again at line 217; `main_pc.at_publish` holds the slots as that read finds
  them and whether the set was pushed in this iteration, in which case it is the set the
  worker pops and the null pointers of lines 92-93 are written into it.
-/

namespace OrTutorial3Web

/-! ## SDK data -/

/-- Status code `rs::core::status`; the program only compares it with `status_no_error`. -/
abbrev status := Int

/-- The success value of `rs::core::status`. -/
def status_no_error : status := 0

/-- The two values of `rs::object_recognition::recognition_mode` the program sets. -/
inductive recognition_mode where
  | LOCALIZATION
  | TRACKING
  deriving DecidableEq, Repr

/-- The value of `rs::object_recognition::localization_mechanism` the program sets. -/
inductive localization_mechanism where
  | CNN
  deriving DecidableEq, Repr

/-- Rectangle `rs::core::rect`. -/
structure rect where
  x : Int
  y : Int
  width : Int
  height : Int
  deriving DecidableEq, Repr

/-- One localization result: the region, and the class label and confidence that come with it
(the confidence is kept as an uninterpreted number). -/
structure localization_data where
  roi : rect
  label : Int
  probability : Int
  deriving DecidableEq, Repr

/-- One tracking result: the region of a tracked object. -/
structure tracking_data where
  roi : rect
  deriving DecidableEq, Repr

/-- Handle of a reference-counted image buffer (`image_interface*`, never null). -/
abbrev image := Nat

/-- Sample set `correlated_sample_set`: the colour and depth slots, each an image pointer
that may be null. -/
structure correlated_sample_set where
  color : Option image
  depth : Option image
  deriving DecidableEq, Repr

/-- Sink of an `on_object_tracking_data` call. -/
inductive view where
  | console
  | web
  deriving DecidableEq, Repr

/-- One call on an external object, with the arguments the program passes. -/
inductive call where
  | init_camera
  | set_recognition_mode (m : recognition_mode)
  | set_localization_mechanism (m : localization_mechanism)
  | set_recognition_confidence (num den : Nat)
  | apply_changes
  | make_or_web_display (port : Nat) (flag : Bool)
  | make_console_or_display
  | query_object_name_list
  | on_object_list
  | thread_start
  | user_request_exit
  | get_sample_set
  | add_ref (i : image)
  | release (i : image)
  | on_rgb_frame (timestamp width height : Int) (i : image)
  | process_sample_set (s : correlated_sample_set)
  | query_localization_result
  | query_tracking_result
  | on_object_tracking_data (v : view) (loc : Option (List localization_data))
      (trk : Option (List tracking_data)) (array_size : Int) (is_localize : Bool)
  | set_tracking_rois (rois : List rect) (array_size : Int)
  | stop_camera
  deriving DecidableEq, Repr

/-- What the recognition engine answers during one worker iteration: the status of
`process_sample_set`, the status and output array of each query, and the status of the
`apply_changes` of `setTracking`. An iteration reads only the answers of the calls it makes. -/
structure engine_response where
  process_status : status
  localization_status : status
  localization_out : Option (List localization_data)
  tracking_status : status
  tracking_out : Option (List tracking_data)
  apply_status : status
  deriving DecidableEq, Repr

/-- Count written next to an output array: its length (0 for the null pointer, where the
program never reads the count). -/
def count_of {α : Type} : Option (List α) → Int
  | some l => (l.length : Int)
  | none => 0

/-- Modelled from the spec: `blocking_queue::push` (declared in `or_utils.hpp`, which is not
among the sources): "inserts a pair", at the end of the FIFO order, without blocking. -/
abbrev blocking_queue_push {α : Type} (q : List α) (x : α) : List α := q ++ [x]

/-- Modelled from the spec: `blocking_queue::pop` (declared in `or_utils.hpp`, which is not
among the sources): "returns the next pair in FIFO order" with what is left of the queue;
`none` stands for the call that blocks because no item is available. -/
def blocking_queue_pop {α : Type} : List α → Option (α × List α)
  | [] => none
  | x :: rest => some (x, rest)

/-! ## Program state -/

/-- Position of the main thread. `at_enqueue s`: `get_sample_set` has returned a set with
the slots `s`, the test of line 205 is next. `at_publish s pushed`: line 217 is next, the
set `sample_set` points to has the slots `s`, and `pushed` tells whether lines 207-213 ran
in this iteration, that is, whether the worker shares the set. -/
inductive main_pc where
  | start
  | loop_head
  | at_acquire
  | at_enqueue (s : correlated_sample_set)
  | at_publish (s : correlated_sample_set) (pushed : Bool)
  | stopping
  | returned
  deriving DecidableEq, Repr

/-- Position of the worker thread. `popped s`: `pop` returned `s`, the body has not run.
`clearing ret`: the body has run and the next statement is `is_or_processing_frame = false`,
followed by `return` when `ret` is true (lines 97, 107, 117) and by the next loop test
otherwise (line 150). -/
inductive worker_pc where
  | not_started
  | loop_head
  | popped (s : correlated_sample_set)
  | clearing (ret : Bool)
  | returned
  deriving DecidableEq, Repr

/-- Globals of the file, locals of `run_object_tracking`, the two program counters, the
calls made so far and the exit code of the process once it has ended. -/
structure State where
  is_localize : Bool
  is_tracking : Bool
  is_or_processing_frame : Bool
  is_exit : Bool
  sample_set_queue : List correlated_sample_set
  loc_data : Option (List localization_data)
  trk_data : Option (List tracking_data)
  array_size : Int
  imageWidth : Int
  imageHeight : Int
  main : main_pc
  worker : worker_pc
  calls : List call
  exit_code : Option Int
  deriving DecidableEq, Repr

/-- State at process start (initialisers of lines 24-30 and 73-77), for a camera whose
colour stream is `w` by `h`. -/
def init (w h : Int) : State :=
  { is_localize := true
    is_tracking := false
    is_or_processing_frame := false
    is_exit := false
    sample_set_queue := []
    loc_data := none
    trk_data := none
    array_size := 0
    imageWidth := w
    imageHeight := h
    main := main_pc.start
    worker := worker_pc.not_started
    calls := []
    exit_code := none }

/-! ## `setTracking` (lines 39-64) -/

/-- Loop of lines 46-52: for `i` from 0 up to `array_size`, the rectangle of entry `i` of
the array, which holds at least `array_size` entries. -/
def trackingRois (localization : List localization_data) (array_size : Int) : List rect :=
  (localization.take array_size.toNat).map fun d =>
    { x := d.roi.x, y := d.roi.y, width := d.roi.width, height := d.roi.height }

/-- Function `setTracking`: switch the engine to tracking, install the regions, commit.
When the commit fails the process exits with code 1 and the mode flags are left alone. -/
def setTracking (st : State) (localization : List localization_data) (array_size : Int)
    (apply_status : status) : State :=
  let st1 := { st with calls := st.calls ++
    [call.set_recognition_mode recognition_mode.TRACKING,
     call.set_tracking_rois (trackingRois localization array_size) array_size,
     call.apply_changes] }
  if apply_status ≠ status_no_error then
    { st1 with exit_code := some 1 }
  else
    { st1 with is_localize := false, is_tracking := true }

/-! ## `run_object_tracking` (lines 67-152) -/

/-- Lines 87-90: release the buffers of the popped sample set that are not null. -/
def release_calls (s : correlated_sample_set) : List call :=
  (match s.color with
    | some c => [call.release c]
    | none => []) ++
  (match s.depth with
    | some d => [call.release d]
    | none => [])

/-- Lines 122-147: show the results and, after a localization that found something,
switch to tracking. -/
def show_results (st : State) (r : engine_response) : State :=
  if st.is_localize then
    match st.loc_data with
    | some l =>
      if st.array_size ≠ 0 then
        let st1 := { st with calls := st.calls ++
          [call.on_object_tracking_data view.console st.loc_data st.trk_data st.array_size
             st.is_localize,
           call.on_object_tracking_data view.web st.loc_data st.trk_data st.array_size
             st.is_localize] }
        setTracking st1 l st1.array_size r.apply_status
      else st
    | none => st
  else
    match st.trk_data with
    | some _ =>
      { st with calls := st.calls ++
          [call.on_object_tracking_data view.console st.loc_data st.trk_data st.array_size
             st.is_localize,
           call.on_object_tracking_data view.web st.loc_data st.trk_data st.array_size
             st.is_localize] }
    | none => st

/-- Lines 92-93 as the main thread sees them: the worker writes null into both slots of the
set it popped, which is the set the main thread is about to read when that set was pushed in
the current iteration of the main loop. -/
def clear_slots : main_pc → main_pc
  | main_pc.at_publish _ true => main_pc.at_publish { color := none, depth := none } true
  | pc => pc

/-- Lines 81-148: the body of one worker iteration for the popped sample set `s`, up to but
not including the statement that clears `is_or_processing_frame`. The null pointers of lines
92-93 go into the popped set, which the worker does not read again; `clear_slots` shows them
to the main thread when it shares the set. The worker is left at
`clearing true` on the three failure paths and at `clearing false` otherwise; when
`setTracking` exits the process, `exit_code` is set. -/
def loop_body (st : State) (s : correlated_sample_set) (r : engine_response) : State :=
  if st.is_localize || st.is_tracking then
    let st1 := { st with calls := st.calls ++ [call.process_sample_set s] ++ release_calls s,
                         main := clear_slots st.main }
    if r.process_status ≠ status_no_error then
      { st1 with worker := worker_pc.clearing true }
    else if st1.is_localize then
      let st2 := { st1 with calls := st1.calls ++ [call.query_localization_result],
                            loc_data := r.localization_out,
                            array_size := count_of r.localization_out }
      if r.localization_status ≠ status_no_error then
        { st2 with worker := worker_pc.clearing true }
      else
        show_results { st2 with worker := worker_pc.clearing false } r
    else
      let st2 := { st1 with calls := st1.calls ++ [call.query_tracking_result],
                            trk_data := r.tracking_out,
                            array_size := count_of r.tracking_out }
      if r.tracking_status ≠ status_no_error then
        { st2 with worker := worker_pc.clearing true }
      else
        show_results { st2 with worker := worker_pc.clearing false } r
  else
    { st with worker := worker_pc.clearing false }

/-- The statement `is_or_processing_frame = false` of lines 97, 107, 117 and 150, and the
`return` or loop-back that follows it. -/
def clear_flag (st : State) : State :=
  match st.worker with
  | worker_pc.clearing true => { st with is_or_processing_frame := false, worker := worker_pc.returned }
  | _ => { st with is_or_processing_frame := false, worker := worker_pc.loop_head }

/-- One whole iteration of the worker loop for the popped sample set `s`: the body and then,
unless the process has exited inside `setTracking`, the clearing of the flag. -/
def worker_iteration (st : State) (s : correlated_sample_set) (r : engine_response) : State :=
  let st1 := loop_body { st with worker := worker_pc.popped s } s r
  if st1.exit_code.isSome then st1 else clear_flag st1

/-- True when the worker takes no further iteration from `st`: it is not at the loop test,
or `is_exit` is set, or the process has ended. -/
def worker_stopped (st : State) : Bool :=
  st.is_exit || decide (st.worker ≠ worker_pc.loop_head) || st.exit_code.isSome

/-- The worker loop run on its own over the sample sets its `pop` calls return and the
engine answers of each iteration: the states at the end of every iteration it executes. -/
def worker_trace : State → List (correlated_sample_set × engine_response) → List State
  | _, [] => []
  | st, (s, r) :: rest =>
    if worker_stopped st then []
    else worker_iteration st s r :: worker_trace (worker_iteration st s r) rest

/-- The state the worker loop ends in on the given inputs. -/
def run_object_tracking : State → List (correlated_sample_set × engine_response) → State
  | st, [] => st
  | st, (s, r) :: rest =>
    if worker_stopped st then st
    else run_object_tracking (worker_iteration st s r) rest

/-! ## `main` (lines 154-227) -/

/-- Lines 165-196: camera start, startup configuration and, when the engine accepts it,
creation of the views and start of the worker thread. -/
def startup (st : State) (apply_status : status) : State :=
  let st1 := { st with calls := st.calls ++
    [call.init_camera,
     call.set_recognition_mode recognition_mode.LOCALIZATION,
     call.set_localization_mechanism localization_mechanism.CNN,
     call.set_recognition_confidence 7 10,
     call.apply_changes] }
  if apply_status ≠ status_no_error then
    { st1 with main := main_pc.returned, exit_code := some 1 }
  else
    { st1 with main := main_pc.loop_head,
               worker := worker_pc.loop_head,
               calls := st1.calls ++
                 [call.make_or_web_display 8000 true,
                  call.make_console_or_display,
                  call.query_object_name_list,
                  call.on_object_list,
                  call.thread_start] }

/-- Lines 205-214 for the acquired sample set `s`: when no frame is being processed, set
the flag, add a reference to both buffers and push the set. `none`: a null buffer is
dereferenced. -/
def enqueue (st : State) (s : correlated_sample_set) : Option State :=
  if !st.is_or_processing_frame then
    match s.color, s.depth with
    | some c, some d =>
      some { st with is_or_processing_frame := true,
                     calls := st.calls ++ [call.add_ref c, call.add_ref d],
                     sample_set_queue := blocking_queue_push st.sample_set_queue s }
    | _, _ => none
  else some st

/-- Lines 217-219 for the slots `s` the read of line 217 finds: send the colour image to the
web view with the time stamp 10. `none`: the colour slot is null and line 219 dereferences
it. -/
def publish (st : State) (s : correlated_sample_set) : Option State :=
  match s.color with
  | some c =>
    some { st with calls := st.calls ++ [call.on_rgb_frame 10 st.imageWidth st.imageHeight c] }
  | none => none

/-! ## The two threads together -/

/-- One step of one thread, with what the environment answers in it. -/
inductive action where
  | startup (apply_status : status)
  | poll (exit_requested : Bool)
  | acquire (s : correlated_sample_set)
  | enqueue
  | publish
  | finish
  | worker_pop
  | worker_process (r : engine_response)
  | worker_clear
  deriving DecidableEq, Repr

/-- Step function of the program: `none` when the step is not the next one of its thread,
when the process has ended, or when the step dereferences a null buffer.

* `startup`: lines 165-196. * `poll`: the loop test of line 198. * `acquire`: line 201.
* `enqueue`: lines 205-214. * `publish`: lines 217-219. * `finish`: lines 223-226.
* `worker_pop`: the loop test of line 79 (blocked while the queue is empty).
* `worker_process`: lines 81-148. * `worker_clear`: `is_or_processing_frame = false`. -/
def step (st : State) (a : action) : Option State :=
  if st.exit_code.isSome then none
  else
    match a with
    | action.startup ap =>
      match st.main with
      | main_pc.start => some (startup st ap)
      | _ => none
    | action.poll b =>
      match st.main with
      | main_pc.loop_head =>
        some { st with calls := st.calls ++ [call.user_request_exit],
                       is_exit := b,
                       main := if b then main_pc.stopping else main_pc.at_acquire }
      | _ => none
    | action.acquire s =>
      match st.main with
      | main_pc.at_acquire =>
        some { st with calls := st.calls ++ [call.get_sample_set], main := main_pc.at_enqueue s }
      | _ => none
    | action.enqueue =>
      match st.main with
      | main_pc.at_enqueue s =>
        (enqueue st s).map fun st1 =>
          { st1 with main := main_pc.at_publish s (!st.is_or_processing_frame) }
      | _ => none
    | action.publish =>
      match st.main with
      | main_pc.at_publish s _ =>
        (publish st s).map fun st1 => { st1 with main := main_pc.loop_head }
      | _ => none
    | action.finish =>
      match st.main with
      | main_pc.stopping =>
        some { st with calls := st.calls ++ [call.stop_camera],
                       main := main_pc.returned,
                       exit_code := some 0 }
      | _ => none
    | action.worker_pop =>
      match st.worker with
      | worker_pc.loop_head =>
        if st.is_exit then some { st with worker := worker_pc.returned }
        else
          match blocking_queue_pop st.sample_set_queue with
          | some (s, rest) =>
            some { st with sample_set_queue := rest, worker := worker_pc.popped s }
          | none => none
      | _ => none
    | action.worker_process r =>
      match st.worker with
      | worker_pc.popped s => some (loop_body st s r)
      | _ => none
    | action.worker_clear =>
      match st.worker with
      | worker_pc.clearing _ => some (clear_flag st)
      | _ => none

/-- Run a list of steps; `none` as soon as one of them is not possible. -/
def run : State → List action → Option State
  | st, [] => some st
  | st, a :: rest => (step st a).bind fun st1 => run st1 rest

/-! ## Observations used in the statements -/

/-- The mode the two flags encode, when they encode one. -/
def mode (st : State) : Option recognition_mode :=
  match st.is_localize, st.is_tracking with
  | true, false => some recognition_mode.LOCALIZATION
  | false, true => some recognition_mode.TRACKING
  | _, _ => none

/-- The engine processed the frame, answered the localization query, and the answer holds
at least one region. -/
def localized (r : engine_response) : Prop :=
  r.process_status = status_no_error ∧ r.localization_status = status_no_error ∧
    ∃ l, r.localization_out = some l ∧ l ≠ []

/-- A call the worker iteration started in `st` makes on the engine answers with a status
other than success: the processing call, or the query of the current mode. -/
def iteration_fails (st : State) (r : engine_response) : Prop :=
  r.process_status ≠ status_no_error ∨
    (st.is_localize = true ∧ r.localization_status ≠ status_no_error) ∨
    (st.is_localize = false ∧ r.tracking_status ≠ status_no_error)

/-- Number of sample sets the worker holds: one between its `pop` and its clearing of the
flag, none otherwise. -/
def holding (st : State) : Nat :=
  match st.worker with
  | worker_pc.popped _ => 1
  | worker_pc.clearing _ => 1
  | _ => 0

/-- The buffers of a sample set that are not null. -/
def buffers (s : correlated_sample_set) : List image :=
  s.color.toList ++ s.depth.toList

/-- The buffers of all sample sets of a queue. -/
def queued_buffers : List correlated_sample_set → List image
  | [] => []
  | s :: rest => buffers s ++ queued_buffers rest

/-- The buffers of the sample sets that were pushed and not yet processed: those in the
queue and those of the set the worker has popped and not yet passed to the engine. -/
def outstanding (st : State) : List image :=
  queued_buffers st.sample_set_queue ++
    (match st.worker with
      | worker_pc.popped s => buffers s
      | _ => [])

/-- Number of `add_ref` calls made on buffer `i`. -/
def added (st : State) (i : image) : Nat := st.calls.count (call.add_ref i)

/-- Number of `release` calls made on buffer `i`. -/
def released (st : State) (i : image) : Nat := st.calls.count (call.release i)

/-- What holds in every state the program can be in. -/
structure Inv (st : State) : Prop where
  mode_valid : (st.is_localize = true ∧ st.is_tracking = false) ∨
    (st.is_localize = false ∧ st.is_tracking = true)
  at_most_one : st.sample_set_queue.length + holding st ≤ 1
  flag_clear : st.is_or_processing_frame = false → st.sample_set_queue = [] ∧ holding st = 0
  refs : ∀ i, added st i = released st i + (outstanding st).count i
  exit_codes : st.exit_code = none ∨ st.exit_code = some 0 ∨ st.exit_code = some 1
  fresh : st.main = main_pc.start → st.worker = worker_pc.not_started ∧ st.calls = []
  stopping : st.main = main_pc.stopping → st.is_exit = true
  nonnull : ∀ s, s ∈ st.sample_set_queue ∨ st.worker = worker_pc.popped s →
    ∃ c d, s = { color := some c, depth := some d }

/-- The state in which the worker thread starts: the startup configuration was accepted. -/
def worker_start (w h : Int) : State := startup (init w h) status_no_error

/-- The set the main thread pushed in its current iteration is the one set that is queued or
popped: what `clear_slots` relies on. -/
def shares_pushed_set (st : State) : Prop :=
  ∀ s, st.main = main_pc.at_publish s true →
    (∀ s1 ∈ st.sample_set_queue, s1 = s) ∧ (∀ s2, st.worker = worker_pc.popped s2 → s2 = s)

/-! ## Example inputs -/

/-- A sample set with colour buffer 10 and depth buffer 11. -/
def demo_frame_1 : correlated_sample_set := { color := some 10, depth := some 11 }

/-- A sample set with colour buffer 20 and depth buffer 21. -/
def demo_frame_2 : correlated_sample_set := { color := some 20, depth := some 21 }

/-- One localized region. -/
def demo_region : localization_data :=
  { roi := { x := 1, y := 2, width := 3, height := 4 }, label := 5, probability := 90 }

/-- Engine answers of an iteration in which everything succeeds and one region is found. -/
def found_response : engine_response :=
  { process_status := 0, localization_status := 0, localization_out := some [demo_region],
    tracking_status := 0, tracking_out := none, apply_status := 0 }

/-- Engine answers of an iteration in which one region is found and the commit of
`setTracking` is rejected. -/
def rejected_response : engine_response :=
  { process_status := 0, localization_status := 0, localization_out := some [demo_region],
    tracking_status := 0, tracking_out := none, apply_status := -1 }

/-- Engine answers of an iteration in which `process_sample_set` fails. -/
def failing_response : engine_response :=
  { process_status := -1, localization_status := 0, localization_out := none,
    tracking_status := 0, tracking_out := none, apply_status := 0 }

/-- The calls of a successful startup. -/
def startup_calls : List call :=
  [call.init_camera,
   call.set_recognition_mode recognition_mode.LOCALIZATION,
   call.set_localization_mechanism localization_mechanism.CNN,
   call.set_recognition_confidence 7 10,
   call.apply_changes,
   call.make_or_web_display 8000 true,
   call.make_console_or_display,
   call.query_object_name_list,
   call.on_object_list,
   call.thread_start]

/-- Steps up to the first push: startup, loop test, acquisition of `demo_frame_1`, enqueue. -/
def push_run : List action :=
  [action.startup 0, action.poll false, action.acquire demo_frame_1, action.enqueue]

/-- The state `push_run` ends in. -/
def pushed_state : State :=
  { init 640 480 with
    is_or_processing_frame := true,
    sample_set_queue := [demo_frame_1],
    main := main_pc.at_publish demo_frame_1 true,
    worker := worker_pc.loop_head,
    calls := startup_calls ++
      [call.user_request_exit, call.get_sample_set, call.add_ref 10, call.add_ref 11] }

/-- The state after `push_run` and the `pop` of the worker. -/
def popped_state : State :=
  { pushed_state with sample_set_queue := [], worker := worker_pc.popped demo_frame_1 }

/-- Steps up to the return of `main`'s loop: startup and a loop test that sees the exit
request. -/
def exit_run : List action := [action.startup 0, action.poll true]

/-- The state `exit_run` ends in. -/
def exit_requested_state : State :=
  { init 640 480 with
    is_exit := true,
    main := main_pc.stopping,
    worker := worker_pc.loop_head,
    calls := startup_calls ++ [call.user_request_exit] }

/-- Steps in which the worker returns on a processing failure of `demo_frame_1` and the
main loop then pushes `demo_frame_2`. -/
def leak_run : List action :=
  [action.startup 0, action.poll false, action.acquire demo_frame_1, action.enqueue,
   action.publish, action.worker_pop, action.worker_process failing_response,
   action.worker_clear, action.poll false, action.acquire demo_frame_2, action.enqueue]

/-- The state `leak_run` ends in. -/
def leak_state : State :=
  { init 640 480 with
    is_or_processing_frame := true,
    sample_set_queue := [demo_frame_2],
    main := main_pc.at_publish demo_frame_2 true,
    worker := worker_pc.returned,
    calls := startup_calls ++
      [call.user_request_exit, call.get_sample_set, call.add_ref 10, call.add_ref 11,
       call.on_rgb_frame 10 640 480 10,
       call.process_sample_set demo_frame_1, call.release 10, call.release 11,
       call.user_request_exit, call.get_sample_set, call.add_ref 20, call.add_ref 21] }

/-- Steps in which `demo_frame_1` is pushed and `main` returns on an exit request before the
worker has popped it. -/
def exit_leak_run : List action :=
  [action.startup 0, action.poll false, action.acquire demo_frame_1, action.enqueue,
   action.publish, action.poll true, action.finish]

/-- Steps after which the main loop is at its loop test with the flag set and the worker is
about to clear it: `demo_frame_1` was pushed and published, popped and processed. -/
def busy_run : List action :=
  [action.startup 0, action.poll false, action.acquire demo_frame_1, action.enqueue,
   action.publish, action.worker_pop, action.worker_process found_response]

/-- One iteration of the main loop on `demo_frame_2` in which the worker clears the flag
between the acquisition and the test of line 205. -/
def overtaken_iteration : List action :=
  [action.poll false, action.acquire demo_frame_2, action.worker_clear, action.enqueue,
   action.publish]

/-- Steps in which the worker pops and processes `demo_frame_1` between its push and the
read of line 217. -/
def early_process_run : List action :=
  [action.startup 0, action.poll false, action.acquire demo_frame_1, action.enqueue,
   action.worker_pop, action.worker_process found_response]

/-! ## `setTracking` -/

theorem trackingRois_length (l : List localization_data) (n : Nat) (hn : l.length = n) :
    (trackingRois l n).length = n := by
  simp [trackingRois, hn]

theorem trackingRois_getElem? (l : List localization_data) (n : Nat) (hn : l.length = n)
    (i : Nat) :
    (trackingRois l n)[i]? = (l[i]?).map fun d =>
      ({ x := d.roi.x, y := d.roi.y, width := d.roi.width, height := d.roi.height } : rect) := by
  have : List.take n l = l := by
    rw [← hn]
    exact List.take_length l
  simp [trackingRois, this]

/-- C9. For a localization result of `n` regions, `setTracking` first switches the engine
to TRACKING, then installs exactly `n` rectangles, the `i`-th with the x, y, width and height
of the `i`-th region, then commits. When the commit succeeds the flags become those of
TRACKING; when it fails the process exits with code 1 and the flags are unchanged. -/
theorem setTracking_installs_regions_then_commits (st : State) (l : List localization_data)
    (n : Nat) (ap : status) (hn : l.length = n) (hpos : 0 < n) :
    (∃ rois : List rect,
      (setTracking st l n ap).calls = st.calls ++
        [call.set_recognition_mode recognition_mode.TRACKING,
         call.set_tracking_rois rois n,
         call.apply_changes] ∧
      rois.length = n ∧
      ∀ (i : Nat) (d : localization_data), l[i]? = some d →
        rois[i]? = some (rect.mk d.roi.x d.roi.y d.roi.width d.roi.height)) ∧
    (ap = status_no_error →
      (setTracking st l n ap).is_localize = false ∧ (setTracking st l n ap).is_tracking = true ∧
      (setTracking st l n ap).exit_code = st.exit_code) ∧
    (ap ≠ status_no_error →
      (setTracking st l n ap).exit_code = some 1 ∧
      (setTracking st l n ap).is_localize = st.is_localize ∧
      (setTracking st l n ap).is_tracking = st.is_tracking) := by
  have _ := hpos
  refine ⟨⟨trackingRois l n, ?_, ?_, ?_⟩, ?_, ?_⟩
  · unfold setTracking
    split <;> rfl
  · exact trackingRois_length l n hn
  · intro i d hd
    rw [trackingRois_getElem? l n hn, hd]
    rfl
  · intro h
    simp [setTracking, h]
  · intro h
    simp [setTracking, h]

/-! ## The branches of one worker iteration -/

theorem mode_localization_iff (st : State) :
    mode st = some recognition_mode.LOCALIZATION ↔ st.is_localize = true ∧ st.is_tracking = false := by
  unfold mode
  cases st.is_localize <;> cases st.is_tracking <;> simp

theorem mode_tracking_iff (st : State) :
    mode st = some recognition_mode.TRACKING ↔ st.is_localize = false ∧ st.is_tracking = true := by
  unfold mode
  cases st.is_localize <;> cases st.is_tracking <;> simp

theorem length_cast_ne_zero {α : Type} (l : List α) (hne : l ≠ []) : ¬ ((l.length : Int) = 0) := by
  intro h
  apply hne
  exact List.length_eq_zero.mp (by exact_mod_cast h)

theorem loop_body_no_mode (st : State) (s : correlated_sample_set) (r : engine_response)
    (hl : st.is_localize = false) (ht : st.is_tracking = false) :
    loop_body st s r = { st with worker := worker_pc.clearing false } := by
  simp [loop_body, hl, ht]

theorem loop_body_process_failure (st : State) (s : correlated_sample_set) (r : engine_response)
    (hg : (st.is_localize || st.is_tracking) = true) (hp : r.process_status ≠ status_no_error) :
    loop_body st s r =
      { st with calls := st.calls ++ [call.process_sample_set s] ++ release_calls s,
                main := clear_slots st.main,
                worker := worker_pc.clearing true } := by
  simp [loop_body, hg, hp]

theorem loop_body_localization_failure (st : State) (s : correlated_sample_set)
    (r : engine_response) (hl : st.is_localize = true)
    (hp : r.process_status = status_no_error) (hq : r.localization_status ≠ status_no_error) :
    loop_body st s r =
      { st with calls := st.calls ++ [call.process_sample_set s] ++ release_calls s ++
                  [call.query_localization_result],
                main := clear_slots st.main,
                loc_data := r.localization_out,
                array_size := count_of r.localization_out,
                worker := worker_pc.clearing true } := by
  simp [loop_body, hl, hp, hq]

theorem loop_body_tracking_failure (st : State) (s : correlated_sample_set)
    (r : engine_response) (hl : st.is_localize = false) (ht : st.is_tracking = true)
    (hp : r.process_status = status_no_error) (hq : r.tracking_status ≠ status_no_error) :
    loop_body st s r =
      { st with calls := st.calls ++ [call.process_sample_set s] ++ release_calls s ++
                  [call.query_tracking_result],
                main := clear_slots st.main,
                trk_data := r.tracking_out,
                array_size := count_of r.tracking_out,
                worker := worker_pc.clearing true } := by
  simp [loop_body, hl, ht, hp, hq]

theorem loop_body_localization_empty (st : State) (s : correlated_sample_set)
    (r : engine_response) (hl : st.is_localize = true)
    (hp : r.process_status = status_no_error) (hq : r.localization_status = status_no_error)
    (he : r.localization_out = none ∨ r.localization_out = some []) :
    loop_body st s r =
      { st with calls := st.calls ++ [call.process_sample_set s] ++ release_calls s ++
                  [call.query_localization_result],
                main := clear_slots st.main,
                loc_data := r.localization_out,
                array_size := count_of r.localization_out,
                worker := worker_pc.clearing false } := by
  rcases he with he | he <;> simp [loop_body, show_results, hl, hp, hq, he, count_of]

theorem loop_body_localization_found (st : State) (s : correlated_sample_set)
    (r : engine_response) (l : List localization_data) (hl : st.is_localize = true)
    (hp : r.process_status = status_no_error) (hq : r.localization_status = status_no_error)
    (ho : r.localization_out = some l) (hne : l ≠ []) :
    loop_body st s r =
      setTracking
        { st with calls := st.calls ++ [call.process_sample_set s] ++ release_calls s ++
                    [call.query_localization_result] ++
                    [call.on_object_tracking_data view.console (some l) st.trk_data l.length true,
                     call.on_object_tracking_data view.web (some l) st.trk_data l.length true],
                  main := clear_slots st.main,
                  loc_data := some l,
                  array_size := l.length,
                  worker := worker_pc.clearing false }
        l l.length r.apply_status := by
  have hlen := length_cast_ne_zero l hne
  simp [loop_body, show_results, hl, hp, hq, ho, count_of, hlen]

theorem loop_body_tracking_shown (st : State) (s : correlated_sample_set)
    (r : engine_response) (t : List tracking_data) (hl : st.is_localize = false)
    (ht : st.is_tracking = true)
    (hp : r.process_status = status_no_error) (hq : r.tracking_status = status_no_error)
    (ho : r.tracking_out = some t) :
    loop_body st s r =
      { st with calls := st.calls ++ [call.process_sample_set s] ++ release_calls s ++
                  [call.query_tracking_result] ++
                  [call.on_object_tracking_data view.console st.loc_data (some t) t.length false,
                   call.on_object_tracking_data view.web st.loc_data (some t) t.length false],
                main := clear_slots st.main,
                trk_data := some t,
                array_size := t.length,
                worker := worker_pc.clearing false } := by
  simp [loop_body, show_results, hl, ht, hp, hq, ho, count_of]

theorem loop_body_tracking_absent (st : State) (s : correlated_sample_set)
    (r : engine_response) (hl : st.is_localize = false) (ht : st.is_tracking = true)
    (hp : r.process_status = status_no_error) (hq : r.tracking_status = status_no_error)
    (ho : r.tracking_out = none) :
    loop_body st s r =
      { st with calls := st.calls ++ [call.process_sample_set s] ++ release_calls s ++
                  [call.query_tracking_result],
                main := clear_slots st.main,
                trk_data := none,
                array_size := 0,
                worker := worker_pc.clearing false } := by
  simp [loop_body, show_results, hl, ht, hp, hq, ho, count_of]

theorem not_localized_of_empty (r : engine_response)
    (he : r.localization_out = none ∨ r.localization_out = some []) : ¬ localized r := by
  rintro ⟨_, _, l, hl, hne⟩
  rcases he with he | he
  · rw [he] at hl
    cases hl
  · rw [he] at hl
    cases hl
    exact hne rfl

/-- Case analysis on the path the loop body takes, with the state each path ends in. -/
theorem loop_body_branches (motive : State → Prop) (st : State) (s : correlated_sample_set)
    (r : engine_response)
    (no_mode : st.is_localize = false → st.is_tracking = false →
      motive { st with worker := worker_pc.clearing false })
    (process_failure : (st.is_localize || st.is_tracking) = true →
      r.process_status ≠ status_no_error →
      motive { st with calls := st.calls ++ [call.process_sample_set s] ++ release_calls s,
                       main := clear_slots st.main,
                       worker := worker_pc.clearing true })
    (localization_failure : st.is_localize = true → r.process_status = status_no_error →
      r.localization_status ≠ status_no_error →
      motive { st with calls := st.calls ++ [call.process_sample_set s] ++ release_calls s ++
                         [call.query_localization_result],
                       main := clear_slots st.main,
                       loc_data := r.localization_out,
                       array_size := count_of r.localization_out,
                       worker := worker_pc.clearing true })
    (localization_empty : st.is_localize = true → r.process_status = status_no_error →
      r.localization_status = status_no_error →
      (r.localization_out = none ∨ r.localization_out = some []) →
      motive { st with calls := st.calls ++ [call.process_sample_set s] ++ release_calls s ++
                         [call.query_localization_result],
                       main := clear_slots st.main,
                       loc_data := r.localization_out,
                       array_size := count_of r.localization_out,
                       worker := worker_pc.clearing false })
    (localization_committed : ∀ l : List localization_data, st.is_localize = true →
      r.process_status = status_no_error → r.localization_status = status_no_error →
      r.localization_out = some l → l ≠ [] → r.apply_status = status_no_error →
      motive { st with calls := st.calls ++ [call.process_sample_set s] ++ release_calls s ++
                         [call.query_localization_result] ++
                         [call.on_object_tracking_data view.console (some l) st.trk_data l.length true,
                          call.on_object_tracking_data view.web (some l) st.trk_data l.length true] ++
                         [call.set_recognition_mode recognition_mode.TRACKING,
                          call.set_tracking_rois (trackingRois l l.length) l.length,
                          call.apply_changes],
                       main := clear_slots st.main,
                       loc_data := some l,
                       array_size := l.length,
                       worker := worker_pc.clearing false,
                       is_localize := false,
                       is_tracking := true })
    (localization_rejected : ∀ l : List localization_data, st.is_localize = true →
      r.process_status = status_no_error → r.localization_status = status_no_error →
      r.localization_out = some l → l ≠ [] → r.apply_status ≠ status_no_error →
      motive { st with calls := st.calls ++ [call.process_sample_set s] ++ release_calls s ++
                         [call.query_localization_result] ++
                         [call.on_object_tracking_data view.console (some l) st.trk_data l.length true,
                          call.on_object_tracking_data view.web (some l) st.trk_data l.length true] ++
                         [call.set_recognition_mode recognition_mode.TRACKING,
                          call.set_tracking_rois (trackingRois l l.length) l.length,
                          call.apply_changes],
                       main := clear_slots st.main,
                       loc_data := some l,
                       array_size := l.length,
                       worker := worker_pc.clearing false,
                       exit_code := some 1 })
    (tracking_failure : st.is_localize = false → st.is_tracking = true →
      r.process_status = status_no_error → r.tracking_status ≠ status_no_error →
      motive { st with calls := st.calls ++ [call.process_sample_set s] ++ release_calls s ++
                         [call.query_tracking_result],
                       main := clear_slots st.main,
                       trk_data := r.tracking_out,
                       array_size := count_of r.tracking_out,
                       worker := worker_pc.clearing true })
    (tracking_shown : ∀ t : List tracking_data, st.is_localize = false → st.is_tracking = true →
      r.process_status = status_no_error → r.tracking_status = status_no_error →
      r.tracking_out = some t →
      motive { st with calls := st.calls ++ [call.process_sample_set s] ++ release_calls s ++
                         [call.query_tracking_result] ++
                         [call.on_object_tracking_data view.console st.loc_data (some t) t.length false,
                          call.on_object_tracking_data view.web st.loc_data (some t) t.length false],
                       main := clear_slots st.main,
                       trk_data := some t,
                       array_size := t.length,
                       worker := worker_pc.clearing false })
    (tracking_absent : st.is_localize = false → st.is_tracking = true →
      r.process_status = status_no_error → r.tracking_status = status_no_error →
      r.tracking_out = none →
      motive { st with calls := st.calls ++ [call.process_sample_set s] ++ release_calls s ++
                         [call.query_tracking_result],
                       main := clear_slots st.main,
                       trk_data := none,
                       array_size := 0,
                       worker := worker_pc.clearing false }) :
    motive (loop_body st s r) := by
  cases hl : st.is_localize
  · cases ht : st.is_tracking
    · rw [loop_body_no_mode st s r hl ht]
      exact no_mode hl ht
    · by_cases hp : r.process_status = status_no_error
      · by_cases hq : r.tracking_status = status_no_error
        · cases ho : r.tracking_out with
          | none =>
            rw [loop_body_tracking_absent st s r hl ht hp hq ho]
            exact tracking_absent hl ht hp hq ho
          | some t =>
            rw [loop_body_tracking_shown st s r t hl ht hp hq ho]
            exact tracking_shown t hl ht hp hq ho
        · rw [loop_body_tracking_failure st s r hl ht hp hq]
          exact tracking_failure hl ht hp hq
      · rw [loop_body_process_failure st s r (by simp [hl, ht]) hp]
        exact process_failure (by simp [ht]) hp
  · by_cases hp : r.process_status = status_no_error
    · by_cases hq : r.localization_status = status_no_error
      · by_cases he : r.localization_out = none ∨ r.localization_out = some []
        · rw [loop_body_localization_empty st s r hl hp hq he]
          exact localization_empty hl hp hq he
        · cases ho : r.localization_out with
          | none => exact absurd (Or.inl ho) he
          | some l =>
            have hne : l ≠ [] := by
              intro h
              apply he
              right
              rw [ho, h]
            rw [loop_body_localization_found st s r l hl hp hq ho hne]
            by_cases hap : r.apply_status = status_no_error
            · have e := localization_committed l hl hp hq ho hne hap
              simpa [setTracking, hap] using e
            · have e := localization_rejected l hl hp hq ho hne hap
              simpa [setTracking, hap] using e
      · rw [loop_body_localization_failure st s r hl hp hq]
        exact localization_failure hl hp hq
    · rw [loop_body_process_failure st s r (by simp [hl]) hp]
      exact process_failure (by simp [hl]) hp

/-! ### What the loop body leaves alone -/

theorem loop_body_is_or_processing_frame (st : State) (s : correlated_sample_set) (r : engine_response) :
    (loop_body st s r).is_or_processing_frame = st.is_or_processing_frame := by
  refine loop_body_branches (fun st1 => st1.is_or_processing_frame = st.is_or_processing_frame) st s r
    ?_ ?_ ?_ ?_ ?_ ?_ ?_ ?_ ?_ <;> intros <;> rfl

theorem loop_body_is_exit (st : State) (s : correlated_sample_set) (r : engine_response) :
    (loop_body st s r).is_exit = st.is_exit := by
  refine loop_body_branches (fun st1 => st1.is_exit = st.is_exit) st s r
    ?_ ?_ ?_ ?_ ?_ ?_ ?_ ?_ ?_ <;> intros <;> rfl

theorem loop_body_sample_set_queue (st : State) (s : correlated_sample_set) (r : engine_response) :
    (loop_body st s r).sample_set_queue = st.sample_set_queue := by
  refine loop_body_branches (fun st1 => st1.sample_set_queue = st.sample_set_queue) st s r
    ?_ ?_ ?_ ?_ ?_ ?_ ?_ ?_ ?_ <;> intros <;> rfl

theorem clear_slots_eq_start (pc : main_pc) :
    clear_slots pc = main_pc.start ↔ pc = main_pc.start := by
  cases pc with
  | at_publish s p => cases p <;> simp [clear_slots]
  | _ => simp [clear_slots]

theorem clear_slots_eq_stopping (pc : main_pc) :
    clear_slots pc = main_pc.stopping ↔ pc = main_pc.stopping := by
  cases pc with
  | at_publish s p => cases p <;> simp [clear_slots]
  | _ => simp [clear_slots]

theorem loop_body_main (st : State) (s : correlated_sample_set) (r : engine_response) :
    (loop_body st s r).main = st.main ∨ (loop_body st s r).main = clear_slots st.main := by
  refine loop_body_branches (fun st1 => st1.main = st.main ∨ st1.main = clear_slots st.main)
    st s r ?_ ?_ ?_ ?_ ?_ ?_ ?_ ?_ ?_
  · intros
    exact Or.inl rfl
  all_goals
    intros
    exact Or.inr rfl

theorem loop_body_main_start (st : State) (s : correlated_sample_set) (r : engine_response) :
    (loop_body st s r).main = main_pc.start ↔ st.main = main_pc.start := by
  rcases loop_body_main st s r with h | h
  · rw [h]
  · rw [h, clear_slots_eq_start]

theorem loop_body_main_stopping (st : State) (s : correlated_sample_set) (r : engine_response) :
    (loop_body st s r).main = main_pc.stopping ↔ st.main = main_pc.stopping := by
  rcases loop_body_main st s r with h | h
  · rw [h]
  · rw [h, clear_slots_eq_stopping]

theorem loop_body_imageWidth (st : State) (s : correlated_sample_set) (r : engine_response) :
    (loop_body st s r).imageWidth = st.imageWidth := by
  refine loop_body_branches (fun st1 => st1.imageWidth = st.imageWidth) st s r
    ?_ ?_ ?_ ?_ ?_ ?_ ?_ ?_ ?_ <;> intros <;> rfl

theorem loop_body_imageHeight (st : State) (s : correlated_sample_set) (r : engine_response) :
    (loop_body st s r).imageHeight = st.imageHeight := by
  refine loop_body_branches (fun st1 => st1.imageHeight = st.imageHeight) st s r
    ?_ ?_ ?_ ?_ ?_ ?_ ?_ ?_ ?_ <;> intros <;> rfl

theorem loop_body_worker (st : State) (s : correlated_sample_set) (r : engine_response) :
    ∃ ret, (loop_body st s r).worker = worker_pc.clearing ret := by
  refine loop_body_branches (fun st1 => ∃ ret, st1.worker = worker_pc.clearing ret) st s r
    ?_ ?_ ?_ ?_ ?_ ?_ ?_ ?_ ?_ <;> intros <;> exact ⟨_, rfl⟩

/-! ### Mode, exit code and worker position after the loop body -/

theorem loop_body_mode_switch (st : State) (s : correlated_sample_set) (r : engine_response) :
    (st.is_localize = true → localized r → r.apply_status = status_no_error →
      (loop_body st s r).is_localize = false ∧ (loop_body st s r).is_tracking = true) ∧
    (¬ (st.is_localize = true ∧ localized r ∧ r.apply_status = status_no_error) →
      (loop_body st s r).is_localize = st.is_localize ∧
      (loop_body st s r).is_tracking = st.is_tracking) := by
  refine loop_body_branches
    (fun st1 =>
      (st.is_localize = true → localized r → r.apply_status = status_no_error →
        st1.is_localize = false ∧ st1.is_tracking = true) ∧
      (¬ (st.is_localize = true ∧ localized r ∧ r.apply_status = status_no_error) →
        st1.is_localize = st.is_localize ∧ st1.is_tracking = st.is_tracking))
    st s r ?_ ?_ ?_ ?_ ?_ ?_ ?_ ?_ ?_
  · intro hl _
    exact ⟨fun h => (by rw [hl] at h; cases h), fun _ => ⟨rfl, rfl⟩⟩
  · intro _ hp
    exact ⟨fun _ h => absurd h.1 hp, fun _ => ⟨rfl, rfl⟩⟩
  · intro _ _ hq
    exact ⟨fun _ h => absurd h.2.1 hq, fun _ => ⟨rfl, rfl⟩⟩
  · intro _ _ _ he
    exact ⟨fun _ h => absurd h (not_localized_of_empty r he), fun _ => ⟨rfl, rfl⟩⟩
  · intro l hl hp hq ho hne hap
    exact ⟨fun _ _ _ => ⟨rfl, rfl⟩, fun h => absurd ⟨hl, ⟨hp, hq, l, ho, hne⟩, hap⟩ h⟩
  · intro l _ _ _ _ _ hap
    exact ⟨fun _ _ h => absurd h hap, fun _ => ⟨rfl, rfl⟩⟩
  · intro hl _ _ _
    exact ⟨fun h => (by rw [hl] at h; cases h), fun _ => ⟨rfl, rfl⟩⟩
  · intro t hl _ _ _ _
    exact ⟨fun h => (by rw [hl] at h; cases h), fun _ => ⟨rfl, rfl⟩⟩
  · intro hl _ _ _ _
    exact ⟨fun h => (by rw [hl] at h; cases h), fun _ => ⟨rfl, rfl⟩⟩

theorem loop_body_exit_code (st : State) (s : correlated_sample_set) (r : engine_response) :
    (st.is_localize = true → localized r → r.apply_status ≠ status_no_error →
      (loop_body st s r).exit_code = some 1) ∧
    (¬ (st.is_localize = true ∧ localized r ∧ r.apply_status ≠ status_no_error) →
      (loop_body st s r).exit_code = st.exit_code) := by
  refine loop_body_branches
    (fun st1 =>
      (st.is_localize = true → localized r → r.apply_status ≠ status_no_error →
        st1.exit_code = some 1) ∧
      (¬ (st.is_localize = true ∧ localized r ∧ r.apply_status ≠ status_no_error) →
        st1.exit_code = st.exit_code))
    st s r ?_ ?_ ?_ ?_ ?_ ?_ ?_ ?_ ?_
  · intro hl _
    exact ⟨fun h => (by rw [hl] at h; cases h), fun _ => rfl⟩
  · intro _ hp
    exact ⟨fun _ h => absurd h.1 hp, fun _ => rfl⟩
  · intro _ _ hq
    exact ⟨fun _ h => absurd h.2.1 hq, fun _ => rfl⟩
  · intro _ _ _ he
    exact ⟨fun _ h => absurd h (not_localized_of_empty r he), fun _ => rfl⟩
  · intro l _ _ _ _ _ hap
    exact ⟨fun _ _ h => absurd hap h, fun _ => rfl⟩
  · intro l hl hp hq ho hne hap
    exact ⟨fun _ _ _ => rfl, fun h => absurd ⟨hl, ⟨hp, hq, l, ho, hne⟩, hap⟩ h⟩
  · intro hl _ _ _
    exact ⟨fun h => (by rw [hl] at h; cases h), fun _ => rfl⟩
  · intro t hl _ _ _ _
    exact ⟨fun h => (by rw [hl] at h; cases h), fun _ => rfl⟩
  · intro hl _ _ _ _
    exact ⟨fun h => (by rw [hl] at h; cases h), fun _ => rfl⟩

/-- On a failing engine call the body stops before any display or configuration call, leaves
the mode and the exit code alone and heads for `return`. -/
theorem loop_body_of_fails (st : State) (s : correlated_sample_set) (r : engine_response)
    (hg : (st.is_localize || st.is_tracking) = true) (hf : iteration_fails st r) :
    (loop_body st s r).worker = worker_pc.clearing true ∧
    (loop_body st s r).is_localize = st.is_localize ∧
    (loop_body st s r).is_tracking = st.is_tracking ∧
    (loop_body st s r).exit_code = st.exit_code ∧
    ∃ q : List call, (q = [] ∨ q = [call.query_localization_result] ∨
        q = [call.query_tracking_result]) ∧
      (loop_body st s r).calls =
        st.calls ++ [call.process_sample_set s] ++ release_calls s ++ q := by
  by_cases hp : r.process_status = status_no_error
  · cases hl : st.is_localize
    · have ht : st.is_tracking = true := by simpa [hl] using hg
      have hq : r.tracking_status ≠ status_no_error := by
        rcases hf with h | h | h
        · exact absurd hp h
        · rw [hl] at h
          cases h.1
        · exact h.2
      rw [loop_body_tracking_failure st s r hl ht hp hq]
      exact ⟨rfl, (by first | rfl | exact hl), rfl, rfl, _, Or.inr (Or.inr rfl), rfl⟩
    · have hq : r.localization_status ≠ status_no_error := by
        rcases hf with h | h | h
        · exact absurd hp h
        · exact h.2
        · rw [hl] at h
          cases h.1
      rw [loop_body_localization_failure st s r hl hp hq]
      exact ⟨rfl, (by first | rfl | exact hl), rfl, rfl, _, Or.inr (Or.inl rfl), rfl⟩
  · rw [loop_body_process_failure st s r hg hp]
    exact ⟨rfl, rfl, rfl, rfl, [], Or.inl rfl, by simp⟩

/-- When no engine call fails the body heads for the next loop test. -/
theorem loop_body_of_not_fails (st : State) (s : correlated_sample_set) (r : engine_response)
    (hf : ¬ iteration_fails st r) :
    (loop_body st s r).worker = worker_pc.clearing false := by
  refine loop_body_branches (fun st1 => st1.worker = worker_pc.clearing false) st s r
    ?_ ?_ ?_ ?_ ?_ ?_ ?_ ?_ ?_
  · intros
    rfl
  · intro _ hp
    exact absurd (Or.inl hp) hf
  · intro hl _ hq
    exact absurd (Or.inr (Or.inl ⟨hl, hq⟩)) hf
  · intros
    rfl
  · intros
    rfl
  · intros
    rfl
  · intro hl _ _ hq
    exact absurd (Or.inr (Or.inr ⟨hl, hq⟩)) hf
  · intros
    rfl
  · intros
    rfl
/-! ## One worker iteration -/

theorem clear_flag_calls (st : State) : (clear_flag st).calls = st.calls := by
  unfold clear_flag
  split <;> rfl

theorem clear_flag_flag (st : State) : (clear_flag st).is_or_processing_frame = false := by
  unfold clear_flag
  split <;> rfl

theorem clear_flag_is_localize (st : State) : (clear_flag st).is_localize = st.is_localize := by
  unfold clear_flag
  split <;> rfl

theorem clear_flag_is_tracking (st : State) : (clear_flag st).is_tracking = st.is_tracking := by
  unfold clear_flag
  split <;> rfl

theorem clear_flag_exit_code (st : State) : (clear_flag st).exit_code = st.exit_code := by
  unfold clear_flag
  split <;> rfl

theorem clear_flag_is_exit (st : State) : (clear_flag st).is_exit = st.is_exit := by
  unfold clear_flag
  split <;> rfl

theorem mode_clear_flag (st : State) : mode (clear_flag st) = mode st := by
  unfold mode
  rw [clear_flag_is_localize, clear_flag_is_tracking]

/-- C7. A worker iteration started while the process is running either ends with
`is_or_processing_frame` false, whatever the branch, or does not end because `setTracking`
exits the process; the latter happens exactly when, in localization, processing and the query
succeed, the result holds a region and the commit fails. -/
theorem flag_clear_at_end_of_iteration (st : State) (s : correlated_sample_set) (r : engine_response)
    (hrun : st.exit_code = none) :
    ((worker_iteration st s r).exit_code = none →
      (worker_iteration st s r).is_or_processing_frame = false) ∧
    ((worker_iteration st s r).exit_code ≠ none ↔
      (st.is_localize = true ∧ localized r ∧ r.apply_status ≠ status_no_error)) := by
  unfold worker_iteration
  refine loop_body_branches
    (fun st1 =>
      ((if st1.exit_code.isSome then st1 else clear_flag st1).exit_code = none →
        (if st1.exit_code.isSome then st1 else clear_flag st1).is_or_processing_frame = false) ∧
      ((if st1.exit_code.isSome then st1 else clear_flag st1).exit_code ≠ none ↔
        (st.is_localize = true ∧ localized r ∧ r.apply_status ≠ status_no_error)))
    { st with worker := worker_pc.popped s } s r ?_ ?_ ?_ ?_ ?_ ?_ ?_ ?_ ?_
  · intro hl ht
    simp only at hl ht
    simp [hrun, clear_flag, hl]
  · intro _ hp
    simp [hrun, clear_flag, localized, hp]
  · intro _ _ hq
    simp [hrun, clear_flag, localized, hq]
  · intro _ _ _ he
    have := not_localized_of_empty r he
    simp [hrun, clear_flag, this]
  · intro l _ _ _ _ _ hap
    simp [hrun, clear_flag, hap]
  · intro l hl hp hq ho hne hap
    simp only at hl
    have hloc : localized r := ⟨hp, hq, l, ho, hne⟩
    simp [hl, hloc, hap]
  · intro hl _ _ _
    simp only at hl
    simp [hrun, clear_flag, hl]
  · intro t hl _ _ _ _
    simp only at hl
    simp [hrun, clear_flag, hl]
  · intro hl _ _ _ _
    simp only at hl
    simp [hrun, clear_flag, hl]

theorem worker_iteration_calls (st : State) (s : correlated_sample_set) (r : engine_response) :
    (worker_iteration st s r).calls = (loop_body { st with worker := worker_pc.popped s } s r).calls := by
  unfold worker_iteration
  dsimp only
  split
  · rfl
  · exact clear_flag_calls _

theorem worker_iteration_is_localize (st : State) (s : correlated_sample_set) (r : engine_response) :
    (worker_iteration st s r).is_localize =
      (loop_body { st with worker := worker_pc.popped s } s r).is_localize := by
  unfold worker_iteration
  dsimp only
  split
  · rfl
  · exact clear_flag_is_localize _

theorem worker_iteration_is_tracking (st : State) (s : correlated_sample_set) (r : engine_response) :
    (worker_iteration st s r).is_tracking =
      (loop_body { st with worker := worker_pc.popped s } s r).is_tracking := by
  unfold worker_iteration
  dsimp only
  split
  · rfl
  · exact clear_flag_is_tracking _

theorem worker_iteration_exit_code (st : State) (s : correlated_sample_set) (r : engine_response) :
    (worker_iteration st s r).exit_code =
      (loop_body { st with worker := worker_pc.popped s } s r).exit_code := by
  unfold worker_iteration
  dsimp only
  split
  · rfl
  · exact clear_flag_exit_code _

theorem worker_iteration_is_exit (st : State) (s : correlated_sample_set) (r : engine_response) :
    (worker_iteration st s r).is_exit = st.is_exit := by
  unfold worker_iteration
  dsimp only
  split
  · rw [loop_body_is_exit]
  · rw [clear_flag_is_exit, loop_body_is_exit]

theorem mode_worker_iteration (st : State) (s : correlated_sample_set) (r : engine_response) :
    mode (worker_iteration st s r) = mode (loop_body { st with worker := worker_pc.popped s } s r) := by
  unfold mode
  rw [worker_iteration_is_localize, worker_iteration_is_tracking]

/-- C8. In a worker iteration that starts in LOCALIZATION and whose processing and
localization query succeed: when the result holds a region, the calls of the iteration are, in
this order, the processing, the releases, the query, the console view with the result, its
count and the localize flag set, the web view with the same arguments, and only then the three
calls of `setTracking`; when the result is empty, the calls stop after the query and the mode
is still LOCALIZATION. -/
theorem localization_results_forwarded_before_transition (st : State) (s : correlated_sample_set)
    (r : engine_response) (hmode : mode st = some recognition_mode.LOCALIZATION)
    (hp : r.process_status = status_no_error) (hq : r.localization_status = status_no_error) :
    (∀ l : List localization_data, r.localization_out = some l → l ≠ [] →
      (worker_iteration st s r).calls =
        st.calls ++ [call.process_sample_set s] ++ release_calls s ++
          [call.query_localization_result] ++
          [call.on_object_tracking_data view.console (some l) st.trk_data l.length true,
           call.on_object_tracking_data view.web (some l) st.trk_data l.length true] ++
          [call.set_recognition_mode recognition_mode.TRACKING,
           call.set_tracking_rois (trackingRois l l.length) l.length,
           call.apply_changes]) ∧
    ((r.localization_out = none ∨ r.localization_out = some []) →
      (worker_iteration st s r).calls =
        st.calls ++ [call.process_sample_set s] ++ release_calls s ++
          [call.query_localization_result] ∧
      mode (worker_iteration st s r) = some recognition_mode.LOCALIZATION) := by
  have hl : st.is_localize = true := ((mode_localization_iff st).mp hmode).1
  have ht : st.is_tracking = false := ((mode_localization_iff st).mp hmode).2
  constructor
  · intro l ho hne
    rw [worker_iteration_calls,
      loop_body_localization_found { st with worker := worker_pc.popped s } s r l hl hp hq ho hne]
    unfold setTracking
    dsimp only
    split <;> rfl
  · intro he
    rw [worker_iteration_calls, mode_worker_iteration,
      loop_body_localization_empty { st with worker := worker_pc.popped s } s r hl hp hq he]
    refine ⟨rfl, ?_⟩
    rw [mode_localization_iff]
    exact ⟨hl, ht⟩

/-! ## The worker loop over a sequence of frames -/

theorem mode_worker_start (w h : Int) :
    mode (worker_start w h) = some recognition_mode.LOCALIZATION := rfl

theorem iteration_keeps_tracking (st : State) (s : correlated_sample_set) (r : engine_response)
    (hm : mode st = some recognition_mode.TRACKING) :
    mode (worker_iteration st s r) = some recognition_mode.TRACKING := by
  obtain ⟨hl, ht⟩ := (mode_tracking_iff st).mp hm
  have hsw := (loop_body_mode_switch { st with worker := worker_pc.popped s } s r).2
    (fun hc => by
      have h1 : st.is_localize = true := hc.1
      rw [hl] at h1
      cases h1)
  rw [mode_worker_iteration, mode_tracking_iff, hsw.1, hsw.2]
  exact ⟨hl, ht⟩

theorem iteration_from_localization (st : State) (s : correlated_sample_set)
    (r : engine_response) (hm : mode st = some recognition_mode.LOCALIZATION) :
    (mode (worker_iteration st s r) = some recognition_mode.TRACKING ↔
      localized r ∧ r.apply_status = status_no_error) ∧
    (mode (worker_iteration st s r) = some recognition_mode.LOCALIZATION ∨
      mode (worker_iteration st s r) = some recognition_mode.TRACKING) := by
  obtain ⟨hl, ht⟩ := (mode_localization_iff st).mp hm
  have hsw := loop_body_mode_switch { st with worker := worker_pc.popped s } s r
  by_cases hc : localized r ∧ r.apply_status = status_no_error
  · have h1 := hsw.1 hl hc.1 hc.2
    have hT : mode (worker_iteration st s r) = some recognition_mode.TRACKING := by
      rw [mode_worker_iteration, mode_tracking_iff]
      exact h1
    exact ⟨⟨fun _ => hc, fun _ => hT⟩, Or.inr hT⟩
  · have h2 := hsw.2 (fun h => hc ⟨h.2.1, h.2.2⟩)
    have hL : mode (worker_iteration st s r) = some recognition_mode.LOCALIZATION := by
      rw [mode_worker_iteration, mode_localization_iff, h2.1, h2.2]
      exact ⟨hl, ht⟩
    refine ⟨⟨fun hT => ?_, fun h => absurd h hc⟩, Or.inl hL⟩
    rw [hL] at hT
    cases hT

theorem iteration_mode_valid (st : State) (s : correlated_sample_set) (r : engine_response)
    (hv : mode st = some recognition_mode.LOCALIZATION ∨ mode st = some recognition_mode.TRACKING) :
    mode (worker_iteration st s r) = some recognition_mode.LOCALIZATION ∨
      mode (worker_iteration st s r) = some recognition_mode.TRACKING := by
  rcases hv with hv | hv
  · exact (iteration_from_localization st s r hv).2
  · exact Or.inr (iteration_keeps_tracking st s r hv)

theorem iteration_stopped_of_rejected (st : State) (s : correlated_sample_set)
    (r : engine_response) (hl : st.is_localize = true) (hloc : localized r)
    (hap : r.apply_status ≠ status_no_error) :
    worker_stopped (worker_iteration st s r) = true := by
  have h := (loop_body_exit_code { st with worker := worker_pc.popped s } s r).1 hl hloc hap
  unfold worker_stopped
  rw [worker_iteration_exit_code, h]
  simp

theorem run_of_stopped (st : State) (inputs : List (correlated_sample_set × engine_response))
    (h : worker_stopped st = true) : run_object_tracking st inputs = st := by
  cases inputs with
  | nil => rfl
  | cons x rest =>
    obtain ⟨s, r⟩ := x
    simp [run_object_tracking, h]

theorem trace_of_stopped (st : State) (inputs : List (correlated_sample_set × engine_response))
    (h : worker_stopped st = true) : worker_trace st inputs = [] := by
  cases inputs with
  | nil => rfl
  | cons x rest =>
    obtain ⟨s, r⟩ := x
    simp [worker_trace, h]

theorem run_cons_of_running (st : State) (s : correlated_sample_set) (r : engine_response)
    (rest : List (correlated_sample_set × engine_response)) (h : worker_stopped st = false) :
    run_object_tracking st ((s, r) :: rest) = run_object_tracking (worker_iteration st s r) rest := by
  simp [run_object_tracking, h]

theorem run_append (st : State) (a b : List (correlated_sample_set × engine_response)) :
    run_object_tracking st (a ++ b) = run_object_tracking (run_object_tracking st a) b := by
  induction a generalizing st with
  | nil => rfl
  | cons x rest ih =>
    obtain ⟨s, r⟩ := x
    cases hs : worker_stopped st
    · rw [List.cons_append, run_cons_of_running _ _ _ _ hs, run_cons_of_running _ _ _ _ hs, ih]
    · rw [run_of_stopped _ _ hs, run_of_stopped _ _ hs, run_of_stopped _ _ hs]

theorem trace_length_append (st : State) (a b : List (correlated_sample_set × engine_response)) :
    (worker_trace st (a ++ b)).length ≤
      a.length + (worker_trace (run_object_tracking st a) b).length := by
  induction a generalizing st with
  | nil => simp [run_object_tracking]
  | cons x rest ih =>
    obtain ⟨s, r⟩ := x
    cases hs : worker_stopped st
    · rw [run_cons_of_running _ _ _ _ hs]
      have := ih (worker_iteration st s r)
      have e : worker_trace st ((s, r) :: rest ++ b) =
          worker_iteration st s r :: worker_trace (worker_iteration st s r) (rest ++ b) := by
        rw [List.cons_append]
        simp [worker_trace, hs]
      rw [e, List.length_cons, List.length_cons]
      omega
    · rw [trace_of_stopped _ _ hs]
      simp

theorem run_mode_valid (st : State) (inputs : List (correlated_sample_set × engine_response))
    (hv : mode st = some recognition_mode.LOCALIZATION ∨ mode st = some recognition_mode.TRACKING) :
    mode (run_object_tracking st inputs) = some recognition_mode.LOCALIZATION ∨
      mode (run_object_tracking st inputs) = some recognition_mode.TRACKING := by
  induction inputs generalizing st with
  | nil => exact hv
  | cons x rest ih =>
    obtain ⟨s, r⟩ := x
    cases hs : worker_stopped st
    · rw [run_cons_of_running _ _ _ _ hs]
      exact ih _ (iteration_mode_valid st s r hv)
    · rw [run_of_stopped _ _ hs]
      exact hv

theorem run_keeps_tracking (st : State) (inputs : List (correlated_sample_set × engine_response))
    (hm : mode st = some recognition_mode.TRACKING) :
    mode (run_object_tracking st inputs) = some recognition_mode.TRACKING := by
  induction inputs generalizing st with
  | nil => exact hm
  | cons x rest ih =>
    obtain ⟨s, r⟩ := x
    cases hs : worker_stopped st
    · rw [run_cons_of_running _ _ _ _ hs]
      exact ih _ (iteration_keeps_tracking st s r hm)
    · rw [run_of_stopped _ _ hs]
      exact hm

/-- While the worker is running in LOCALIZATION, no frame so far was localized. -/
theorem none_localized_before (st : State) (pre : List (correlated_sample_set × engine_response))
    (hm0 : mode st = some recognition_mode.LOCALIZATION)
    (hrun : worker_stopped (run_object_tracking st pre) = false)
    (hm : mode (run_object_tracking st pre) = some recognition_mode.LOCALIZATION) :
    ∀ x ∈ pre, ¬ localized x.2 := by
  induction pre generalizing st with
  | nil =>
    intro x hx
    cases hx
  | cons y rest ih =>
    obtain ⟨s, r⟩ := y
    cases hs : worker_stopped st
    · rw [run_cons_of_running _ _ _ _ hs] at hrun hm
      have hl : st.is_localize = true := ((mode_localization_iff st).mp hm0).1
      have hnot : ¬ localized r := by
        intro hloc
        by_cases hap : r.apply_status = status_no_error
        · have hT := (iteration_from_localization st s r hm0).1.mpr ⟨hloc, hap⟩
          have := run_keeps_tracking _ rest hT
          rw [hm] at this
          cases this
        · have hstop := iteration_stopped_of_rejected st s r hl hloc hap
          rw [run_of_stopped _ _ hstop, hstop] at hrun
          cases hrun
      have hL : mode (worker_iteration st s r) = some recognition_mode.LOCALIZATION := by
        rcases (iteration_from_localization st s r hm0).2 with h | h
        · exact h
        · exact absurd ((iteration_from_localization st s r hm0).1.mp h).1 hnot
      intro x hx
      rcases List.mem_cons.mp hx with hx | hx
      · rw [hx]
        exact hnot
      · exact ih _ hL hrun hm x hx
    · rw [run_of_stopped _ _ hs, hs] at hrun
      cases hrun

/-- C1, as amended. The mode is LOCALIZATION when the worker starts and stays one of the two
modes. In any iteration, reached after any frames `pre`: from TRACKING the mode stays
TRACKING; from LOCALIZATION it becomes TRACKING exactly when processing and the localization
query succeed with at least one region and the commit of `setTracking` succeeds; and when the
worker is still running after `pre`, that iteration is the next one of the loop and, if the
mode is LOCALIZATION, none of the earlier frames was localized, so the iteration that changes
the mode is the first localized one. -/
theorem mode_changes_only_at_first_committed_localization (w h : Int)
    (pre : List (correlated_sample_set × engine_response)) (s : correlated_sample_set)
    (r : engine_response) :
    mode (worker_start w h) = some recognition_mode.LOCALIZATION ∧
    (mode (run_object_tracking (worker_start w h) pre) = some recognition_mode.LOCALIZATION ∨
      mode (run_object_tracking (worker_start w h) pre) = some recognition_mode.TRACKING) ∧
    (mode (run_object_tracking (worker_start w h) pre) = some recognition_mode.TRACKING →
      mode (worker_iteration (run_object_tracking (worker_start w h) pre) s r) =
        some recognition_mode.TRACKING) ∧
    (mode (run_object_tracking (worker_start w h) pre) = some recognition_mode.LOCALIZATION →
      (mode (worker_iteration (run_object_tracking (worker_start w h) pre) s r) =
          some recognition_mode.TRACKING ↔
        localized r ∧ r.apply_status = status_no_error) ∧
      (mode (worker_iteration (run_object_tracking (worker_start w h) pre) s r) =
          some recognition_mode.LOCALIZATION ∨
        mode (worker_iteration (run_object_tracking (worker_start w h) pre) s r) =
          some recognition_mode.TRACKING)) ∧
    (worker_stopped (run_object_tracking (worker_start w h) pre) = false →
      run_object_tracking (worker_start w h) (pre ++ [(s, r)]) =
        worker_iteration (run_object_tracking (worker_start w h) pre) s r ∧
      (mode (run_object_tracking (worker_start w h) pre) = some recognition_mode.LOCALIZATION →
        ∀ x ∈ pre, ¬ localized x.2)) := by
  refine ⟨mode_worker_start w h, run_mode_valid _ pre (Or.inl (mode_worker_start w h)), ?_, ?_, ?_⟩
  · exact iteration_keeps_tracking _ s r
  · exact iteration_from_localization _ s r
  · intro hrun
    refine ⟨?_, fun hm => none_localized_before _ pre (mode_worker_start w h) hrun hm⟩
    rw [run_append, run_cons_of_running _ _ _ _ hrun]
    rfl

theorem guard_of_mode_valid (st : State)
    (hv : mode st = some recognition_mode.LOCALIZATION ∨ mode st = some recognition_mode.TRACKING) :
    (st.is_localize || st.is_tracking) = true := by
  rcases hv with hv | hv
  · simp [((mode_localization_iff st).mp hv).1]
  · simp [((mode_tracking_iff st).mp hv).2]

/-- A failing iteration of a running worker: it returns with the flag cleared, the mode
unchanged and no call after the failing one. -/
theorem iteration_of_fails (st : State) (s : correlated_sample_set) (r : engine_response)
    (hv : mode st = some recognition_mode.LOCALIZATION ∨ mode st = some recognition_mode.TRACKING)
    (hrun : worker_stopped st = false) (hf : iteration_fails st r) :
    (worker_iteration st s r).worker = worker_pc.returned ∧
    mode (worker_iteration st s r) = mode st ∧
    (worker_iteration st s r).is_or_processing_frame = false ∧
    ∃ q : List call, (q = [] ∨ q = [call.query_localization_result] ∨
        q = [call.query_tracking_result]) ∧
      (worker_iteration st s r).calls =
        st.calls ++ [call.process_sample_set s] ++ release_calls s ++ q := by
  have hex : st.exit_code = none := by
    unfold worker_stopped at hrun
    cases he : st.exit_code with
    | none => rfl
    | some c => simp [he] at hrun
  obtain ⟨hw, hl, ht, he, q, hq, hc⟩ :=
    loop_body_of_fails { st with worker := worker_pc.popped s } s r (guard_of_mode_valid st hv) hf
  have hnone : (loop_body { st with worker := worker_pc.popped s } s r).exit_code.isSome = false := by
    rw [he]
    simp [hex]
  refine ⟨?_, ?_, ?_, q, hq, ?_⟩
  · simp only [worker_iteration, hnone, Bool.false_eq_true, if_false]
    simp [clear_flag, hw]
  · rw [mode_worker_iteration]
    unfold mode
    rw [hl, ht]
  · simp only [worker_iteration, hnone, Bool.false_eq_true, if_false]
    exact clear_flag_flag _
  · rw [worker_iteration_calls, hc]

/-- C4. When an engine call of the iteration on the `N`-th frame fails (`N` is one more
than the length of `pre`), the worker pops at most `N` sample sets however many follow, the
frames after the `N`-th change nothing, and the failing iteration itself returns with the
flag cleared, the mode unchanged and no call after the failing one: its calls are the
processing, the releases and, when reached, the query. -/
theorem worker_stops_at_first_failure (w h : Int)
    (pre : List (correlated_sample_set × engine_response)) (s : correlated_sample_set)
    (r : engine_response) (post : List (correlated_sample_set × engine_response))
    (hfail : iteration_fails (run_object_tracking (worker_start w h) pre) r) :
    (worker_trace (worker_start w h) (pre ++ (s, r) :: post)).length ≤ pre.length + 1 ∧
    run_object_tracking (worker_start w h) (pre ++ (s, r) :: post) =
      run_object_tracking (worker_start w h) (pre ++ [(s, r)]) ∧
    (worker_stopped (run_object_tracking (worker_start w h) pre) = false →
      (worker_iteration (run_object_tracking (worker_start w h) pre) s r).worker =
        worker_pc.returned ∧
      mode (worker_iteration (run_object_tracking (worker_start w h) pre) s r) =
        mode (run_object_tracking (worker_start w h) pre) ∧
      (worker_iteration (run_object_tracking (worker_start w h) pre) s r).is_or_processing_frame =
        false ∧
      ∃ q : List call, (q = [] ∨ q = [call.query_localization_result] ∨
          q = [call.query_tracking_result]) ∧
        (worker_iteration (run_object_tracking (worker_start w h) pre) s r).calls =
          (run_object_tracking (worker_start w h) pre).calls ++
            [call.process_sample_set s] ++ release_calls s ++ q) := by
  have hv := run_mode_valid (worker_start w h) pre (Or.inl (mode_worker_start w h))
  have key : ∀ st : State,
      (mode st = some recognition_mode.LOCALIZATION ∨ mode st = some recognition_mode.TRACKING) →
      iteration_fails st r →
      (worker_trace st ((s, r) :: post)).length ≤ 1 ∧
      run_object_tracking st ((s, r) :: post) = run_object_tracking st [(s, r)] := by
    intro st hv hf
    cases hs : worker_stopped st
    · have hw := (iteration_of_fails st s r hv hs hf).1
      have hstop : worker_stopped (worker_iteration st s r) = true := by
        simp [worker_stopped, hw]
      constructor
      · simp [worker_trace, hs, trace_of_stopped _ _ hstop]
      · rw [run_cons_of_running _ _ _ _ hs, run_cons_of_running _ _ _ _ hs,
          run_of_stopped _ _ hstop]
        rfl
    · rw [trace_of_stopped _ _ hs, run_of_stopped _ _ hs, run_of_stopped _ _ hs]
      simp
  refine ⟨?_, ?_, ?_⟩
  · have h1 := trace_length_append (worker_start w h) pre ((s, r) :: post)
    have h2 := (key _ hv hfail).1
    omega
  · rw [run_append, run_append, (key _ hv hfail).2]
  · intro hrun
    exact iteration_of_fails _ s r hv hrun hfail

/-! ## Reference counts -/

theorem count_release_release_calls (s : correlated_sample_set) (i : image) :
    (release_calls s).count (call.release i) = (buffers s).count i := by
  obtain ⟨c, d⟩ := s
  cases c <;> cases d <;> simp [release_calls, buffers, List.count_cons]

theorem count_add_ref_release_calls (s : correlated_sample_set) (i : image) :
    (release_calls s).count (call.add_ref i) = 0 := by
  obtain ⟨c, d⟩ := s
  cases c <;> cases d <;> simp [release_calls, List.count_cons]

theorem loop_body_added (st : State) (s : correlated_sample_set) (r : engine_response) (i : image) :
    added (loop_body st s r) i = added st i := by
  refine loop_body_branches (fun st1 => added st1 i = added st i) st s r
    ?_ ?_ ?_ ?_ ?_ ?_ ?_ ?_ ?_ <;> intros <;>
    simp [added, List.count_append, List.count_cons, count_add_ref_release_calls]

theorem loop_body_released (st : State) (s : correlated_sample_set) (r : engine_response)
    (i : image) (hg : (st.is_localize || st.is_tracking) = true) :
    released (loop_body st s r) i = released st i + (buffers s).count i := by
  refine loop_body_branches (fun st1 => released st1 i = released st i + (buffers s).count i)
    st s r ?_ ?_ ?_ ?_ ?_ ?_ ?_ ?_ ?_
  · intro hl ht
    rw [hl, ht] at hg
    cases hg
  all_goals
    intros
    simp [released, List.count_append, List.count_cons, count_release_release_calls]

theorem queued_buffers_append (q : List correlated_sample_set) (s : correlated_sample_set) :
    queued_buffers (q ++ [s]) = queued_buffers q ++ buffers s := by
  induction q with
  | nil => simp [queued_buffers]
  | cons x rest ih => simp [queued_buffers, ih]

/-! ## The invariant of the two threads -/

theorem inv_init (w h : Int) : Inv (init w h) := by
  refine ⟨?_, ?_, ?_, ?_, ?_, ?_, ?_, ?_⟩
  · exact Or.inl ⟨rfl, rfl⟩
  · simp [init, holding]
  · intro _
    exact ⟨rfl, rfl⟩
  · intro i
    simp [init, added, released, outstanding, queued_buffers]
  · exact Or.inl rfl
  · intro _
    exact ⟨rfl, rfl⟩
  · intro h
    cases h
  · intro s h
    rcases h with h | h
    · simp [init] at h
    · cases h

theorem inv_startup (st : State) (ap : status) (hI : Inv st) (hm : st.main = main_pc.start) :
    Inv (startup st ap) := by
  obtain ⟨h1, h2, h3, h4, h5, h6, h7, h8⟩ := hI
  obtain ⟨hw, hc⟩ := h6 hm
  have hh : holding st = 0 := by simp [holding, hw]
  by_cases hap : ap = status_no_error
  · refine ⟨?_, ?_, ?_, ?_, ?_, ?_, ?_, ?_⟩
    · simpa [startup, hap] using h1
    · simp only [startup, hap]
      simp [holding]
      omega
    · intro hf
      have := h3 (by simpa [startup, hap] using hf)
      simp [startup, hap, holding, this.1]
    · intro i
      have := h4 i
      simp only [added, released, outstanding, hw] at this
      simp [startup, hap, added, released, outstanding, List.count_append, List.count_cons, this]
    · simpa [startup, hap] using h5
    · intro h
      simp [startup, hap] at h
    · intro h
      simp [startup, hap] at h
    · intro s h
      apply h8 s
      rcases h with h | h
      · left
        simpa [startup, hap] using h
      · simp [startup, hap] at h
  · refine ⟨?_, ?_, ?_, ?_, ?_, ?_, ?_, ?_⟩
    · simpa [startup, hap] using h1
    · simpa [startup, hap, holding, hw] using h2
    · intro hf
      have := h3 (by simpa [startup, hap] using hf)
      simp [startup, hap, holding, hw, this.1]
    · intro i
      have := h4 i
      simp only [added, released, outstanding, hw] at this
      simp [startup, hap, added, released, outstanding, List.count_append, List.count_cons, this, hw]
    · right
      right
      simp [startup, hap]
    · intro h
      simp [startup, hap] at h
    · intro h
      simp [startup, hap] at h
    · intro s h
      apply h8 s
      rcases h with h | h
      · left
        simpa [startup, hap] using h
      · right
        simpa [startup, hap] using h

/-- A step of the main thread that only appends calls that are neither `add_ref` nor
`release`, and moves the main thread and `is_exit`, keeps the invariant. -/
theorem inv_main_move (st : State) (cs : List call) (e : Bool) (pc : main_pc)
    (x : Option Int) (hI : Inv st)
    (hcs : ∀ i, cs.count (call.add_ref i) = 0 ∧ cs.count (call.release i) = 0)
    (hpc : pc ≠ main_pc.start) (hstop : pc = main_pc.stopping → e = true)
    (hx : x = none ∨ x = some 0 ∨ x = some 1) :
    Inv { st with calls := st.calls ++ cs, is_exit := e, main := pc, exit_code := x } := by
  obtain ⟨h1, h2, h3, h4, h5, h6, h7, h8⟩ := hI
  refine ⟨h1, h2, h3, ?_, hx, ?_, hstop, h8⟩
  · intro i
    have := h4 i
    simp only [added, released, outstanding] at this ⊢
    simp [List.count_append, (hcs i).1, (hcs i).2, this]
  · intro h
    exact absurd h hpc

theorem inv_enqueue (st st1 : State) (s : correlated_sample_set) (p : Bool) (hI : Inv st)
    (hm : st.main = main_pc.at_enqueue s) (he : enqueue st s = some st1) :
    Inv { st1 with main := main_pc.at_publish s p } := by
  obtain ⟨h1, h2, h3, h4, h5, h6, h7, h8⟩ := hI
  unfold enqueue at he
  cases hf : st.is_or_processing_frame
  · obtain ⟨hq, hh⟩ := h3 hf
    rw [hf] at he
    simp only [Bool.not_false, if_true] at he
    obtain ⟨c, d⟩ := s
    cases c with
    | none => simp at he
    | some c =>
      cases d with
      | none => simp at he
      | some d =>
        simp only [Option.some.injEq] at he
        subst he
        refine ⟨h1, ?_, ?_, ?_, h5, ?_, ?_, ?_⟩
        · have : holding st = 0 := hh
          simp only [holding] at this ⊢
          simp [hq, this]
        · intro h
          simp at h
        · intro i
          have := h4 i
          simp only [added, released, outstanding] at this ⊢
          simp only [queued_buffers_append]
          simp [List.count_append, List.count_cons, buffers, this]
          omega
        · intro h
          simp at h
        · intro h
          simp at h
        · intro s h
          rcases h with h | h
          · simp only [List.mem_append, List.mem_singleton] at h
            rcases h with h | h
            · exact h8 s (Or.inl h)
            · exact ⟨c, d, h⟩
          · exact h8 s (Or.inr h)
  · rw [hf] at he
    simp only [Bool.not_true, Bool.false_eq_true, if_false, Option.some.injEq] at he
    subst he
    refine ⟨h1, h2, h3, h4, h5, ?_, ?_, h8⟩
    · intro h
      simp at h
    · intro h
      simp at h

theorem blocking_queue_pop_some {α : Type} (q rest : List α) (x : α)
    (h : blocking_queue_pop q = some (x, rest)) : q = x :: rest := by
  cases q with
  | nil => cases h
  | cons y ys =>
    simp only [blocking_queue_pop, Option.some.injEq, Prod.mk.injEq] at h
    rw [h.1, h.2]

theorem inv_pop_exit (st : State) (hI : Inv st) (hw : st.worker = worker_pc.loop_head) :
    Inv { st with worker := worker_pc.returned } := by
  obtain ⟨h1, h2, h3, h4, h5, h6, h7, h8⟩ := hI
  have hh : holding st = 0 := by simp [holding, hw]
  refine ⟨h1, ?_, ?_, ?_, h5, ?_, h7, ?_⟩
  · rw [hh] at h2
    simpa [holding] using h2
  · intro hf
    exact ⟨(h3 hf).1, rfl⟩
  · intro i
    have := h4 i
    simp only [added, released, outstanding, hw] at this ⊢
    simpa using this
  · intro h
    have := (h6 h).1
    rw [hw] at this
    cases this
  · intro s h
    rcases h with h | h
    · exact h8 s (Or.inl h)
    · simp at h

theorem inv_pop (st : State) (s : correlated_sample_set) (rest : List correlated_sample_set)
    (hI : Inv st) (hw : st.worker = worker_pc.loop_head) (hq : st.sample_set_queue = s :: rest) :
    Inv { st with sample_set_queue := rest, worker := worker_pc.popped s } := by
  obtain ⟨h1, h2, h3, h4, h5, h6, h7, h8⟩ := hI
  have hrest : rest = [] := by
    rw [hq] at h2
    simp at h2
    have : rest.length = 0 := by omega
    exact List.length_eq_zero.mp this
  have hflag : st.is_or_processing_frame = true := by
    cases hf : st.is_or_processing_frame
    · have := (h3 hf).1
      rw [hq] at this
      cases this
    · rfl
  refine ⟨h1, ?_, ?_, ?_, h5, ?_, h7, ?_⟩
  · simp [holding, hrest]
  · intro hf
    have : st.is_or_processing_frame = false := hf
    rw [hflag] at this
    cases this
  · intro i
    have := h4 i
    simp only [added, released, outstanding, hw, hq, queued_buffers] at this ⊢
    simp only [hrest, queued_buffers] at this ⊢
    simpa using this
  · intro h
    have := (h6 h).1
    rw [hw] at this
    cases this
  · intro s' h
    rcases h with h | h
    · exact h8 s' (Or.inl (by rw [hq]; exact List.mem_cons_of_mem _ h))
    · simp only [worker_pc.popped.injEq] at h
      subst h
      exact h8 _ (Or.inl (by rw [hq]; exact List.mem_cons_self _ _))

theorem inv_process (st : State) (s : correlated_sample_set) (r : engine_response)
    (hI : Inv st) (hw : st.worker = worker_pc.popped s) : Inv (loop_body st s r) := by
  obtain ⟨h1, h2, h3, h4, h5, h6, h7, h8⟩ := hI
  obtain ⟨ret, hret⟩ := loop_body_worker st s r
  have hh : holding st = 1 := by simp [holding, hw]
  have hg : (st.is_localize || st.is_tracking) = true := by
    rcases h1 with h | h <;> simp [h.1, h.2]
  refine ⟨?_, ?_, ?_, ?_, ?_, ?_, ?_, ?_⟩
  · by_cases hc : st.is_localize = true ∧ localized r ∧ r.apply_status = status_no_error
    · exact Or.inr ((loop_body_mode_switch st s r).1 hc.1 hc.2.1 hc.2.2)
    · have := (loop_body_mode_switch st s r).2 hc
      rw [this.1, this.2]
      exact h1
  · rw [loop_body_sample_set_queue]
    rw [hh] at h2
    simpa [holding, hret] using h2
  · intro hf
    rw [loop_body_is_or_processing_frame] at hf
    have := (h3 hf).2
    rw [hh] at this
    cases this
  · intro i
    have := h4 i
    rw [loop_body_added, loop_body_released st s r i hg, this]
    simp only [outstanding, loop_body_sample_set_queue, hw, hret, List.count_append]
    simp
    omega
  · by_cases hc : st.is_localize = true ∧ localized r ∧ r.apply_status ≠ status_no_error
    · exact Or.inr (Or.inr ((loop_body_exit_code st s r).1 hc.1 hc.2.1 hc.2.2))
    · rw [(loop_body_exit_code st s r).2 hc]
      exact h5
  · intro h
    rw [loop_body_main_start] at h
    have := (h6 h).1
    rw [hw] at this
    cases this
  · intro h
    rw [loop_body_main_stopping] at h
    rw [loop_body_is_exit]
    exact h7 h
  · intro s' h
    rcases h with h | h
    · rw [loop_body_sample_set_queue] at h
      exact h8 s' (Or.inl h)
    · rw [hret] at h
      cases h

theorem inv_clear (st : State) (ret : Bool) (hI : Inv st)
    (hw : st.worker = worker_pc.clearing ret) : Inv (clear_flag st) := by
  obtain ⟨h1, h2, h3, h4, h5, h6, h7, h8⟩ := hI
  have hh : holding st = 1 := by simp [holding, hw]
  have hq : st.sample_set_queue = [] := by
    rw [hh] at h2
    exact List.length_eq_zero.mp (by omega)
  have hstart : st.main ≠ main_pc.start := by
    intro h
    have := (h6 h).1
    rw [hw] at this
    cases this
  have ho : ∀ i, (outstanding st).count i = 0 := by
    intro i
    simp [outstanding, hw, hq, queued_buffers]
  cases ret
  · have e : clear_flag st =
        { st with is_or_processing_frame := false, worker := worker_pc.loop_head } := by
      simp [clear_flag, hw]
    rw [e]
    refine ⟨h1, ?_, ?_, ?_, h5, ?_, h7, ?_⟩
    · simp [holding, hq]
    · intro _
      exact ⟨hq, rfl⟩
    · intro i
      have := h4 i
      rw [ho i] at this
      simp only [added, released] at this
      simp [added, released, outstanding, hq, queued_buffers, this]
    · intro h
      exact absurd h hstart
    · intro s h
      rcases h with h | h
      · exact h8 s (Or.inl h)
      · simp at h
  · have e : clear_flag st =
        { st with is_or_processing_frame := false, worker := worker_pc.returned } := by
      simp [clear_flag, hw]
    rw [e]
    refine ⟨h1, ?_, ?_, ?_, h5, ?_, h7, ?_⟩
    · simp [holding, hq]
    · intro _
      exact ⟨hq, rfl⟩
    · intro i
      have := h4 i
      rw [ho i] at this
      simp only [added, released] at this
      simp [added, released, outstanding, hq, queued_buffers, this]
    · intro h
      exact absurd h hstart
    · intro s h
      rcases h with h | h
      · exact h8 s (Or.inl h)
      · simp at h

theorem exit_code_none_of_step (st st1 : State) (a : action) (h : step st a = some st1) :
    st.exit_code = none := by
  unfold step at h
  cases he : st.exit_code with
  | none => rfl
  | some c => simp [he] at h

theorem inv_step (st st1 : State) (a : action) (hI : Inv st) (h : step st a = some st1) :
    Inv st1 := by
  have hex := exit_code_none_of_step st st1 a h
  have hne : ¬ (st.exit_code.isSome = true) := by simp [hex]
  unfold step at h
  rw [if_neg hne] at h
  cases a with
  | startup ap =>
    simp only at h
    split at h
    · rename_i hm
      cases h
      exact inv_startup st ap hI hm
    · cases h
  | poll b =>
    simp only at h
    split at h
    · cases h
      have := inv_main_move st [call.user_request_exit] b
        (if b then main_pc.stopping else main_pc.at_acquire) st.exit_code hI
        (by intro i; simp [List.count_cons]) (by cases b <;> simp) (by cases b <;> simp)
        hI.exit_codes
      exact this
    · cases h
  | acquire s =>
    simp only at h
    split at h
    · rename_i hm
      cases h
      have := inv_main_move st [call.get_sample_set] st.is_exit (main_pc.at_enqueue s)
        st.exit_code hI (by intro i; simp [List.count_cons]) (by simp) (by simp) hI.exit_codes
      exact this
    · cases h
  | enqueue =>
    simp only at h
    split at h
    · rename_i s hm
      cases he : enqueue st s with
      | none => simp [he] at h
      | some st2 =>
        simp only [he, Option.map_some', Option.some.injEq] at h
        subst h
        exact inv_enqueue st st2 s _ hI hm he
    · cases h
  | publish =>
    simp only at h
    split at h
    · rename_i s p hm
      unfold publish at h
      cases hc : s.color with
      | none => simp [hc] at h
      | some c =>
        simp only [hc, Option.map_some', Option.some.injEq] at h
        subst h
        have := inv_main_move st [call.on_rgb_frame 10 st.imageWidth st.imageHeight c] st.is_exit
          main_pc.loop_head st.exit_code hI (by intro i; simp [List.count_cons]) (by simp)
          (by simp) hI.exit_codes
        exact this
    · cases h
  | finish =>
    simp only at h
    split at h
    · rename_i hm
      cases h
      have := inv_main_move st [call.stop_camera] st.is_exit main_pc.returned (some 0) hI
        (by intro i; simp [List.count_cons]) (by simp) (by simp) (Or.inr (Or.inl rfl))
      exact this
    · cases h
  | worker_pop =>
    simp only at h
    split at h
    · rename_i hw
      split at h
      · cases h
        exact inv_pop_exit st hI hw
      · split at h
        · rename_i s rest hq
          cases h
          exact inv_pop st s rest hI hw (blocking_queue_pop_some _ _ _ hq)
        · cases h
    · cases h
  | worker_process r =>
    simp only at h
    split at h
    · rename_i s hw
      cases h
      exact inv_process st s r hI hw
    · cases h
  | worker_clear =>
    simp only at h
    split at h
    · rename_i ret hw
      cases h
      exact inv_clear st ret hI hw
    · cases h

theorem inv_run (st st1 : State) (acts : List action) (hI : Inv st)
    (h : run st acts = some st1) : Inv st1 := by
  induction acts generalizing st with
  | nil =>
    simp only [run, Option.some.injEq] at h
    subst h
    exact hI
  | cons a rest ih =>
    simp only [run] at h
    cases hs : step st a with
    | none => simp [hs] at h
    | some st2 =>
      rw [hs] at h
      exact ih st2 (inv_step st st2 a hI hs) h

theorem inv_reachable (w h : Int) (st : State) (acts : List action)
    (hr : run (init w h) acts = some st) : Inv st :=
  inv_run (init w h) st acts (inv_init w h) hr

/-! ## The program as a whole -/

/-- C2. In every state the program reaches by steps of its two threads, in any order, the
sample sets in the queue and the one the worker holds are at most one in total, and when `is_or_processing_frame` is false the queue
is empty and the worker holds none. -/
theorem at_most_one_frame_outstanding (w h : Int) (acts : List action) (st : State)
    (hr : run (init w h) acts = some st) :
    st.sample_set_queue.length + holding st ≤ 1 ∧
    (st.is_or_processing_frame = false → st.sample_set_queue = [] ∧ holding st = 0) :=
  ⟨(inv_reachable w h st acts hr).at_most_one, (inv_reachable w h st acts hr).flag_clear⟩

theorem loop_body_calls_start (st : State) (s : correlated_sample_set) (r : engine_response)
    (hg : (st.is_localize || st.is_tracking) = true) :
    ∃ rest : List call,
      (loop_body st s r).calls = st.calls ++ [call.process_sample_set s] ++ release_calls s ++ rest := by
  refine loop_body_branches
    (fun st1 => ∃ rest : List call,
      st1.calls = st.calls ++ [call.process_sample_set s] ++ release_calls s ++ rest)
    st s r ?_ ?_ ?_ ?_ ?_ ?_ ?_ ?_ ?_
  · intro hl ht
    rw [hl, ht] at hg
    cases hg
  · intros
    exact ⟨[], by simp⟩
  · intros
    exact ⟨_, rfl⟩
  · intros
    exact ⟨_, rfl⟩
  · intro l _ _ _ _ _ _
    exact ⟨[call.query_localization_result] ++
      [call.on_object_tracking_data view.console (some l) st.trk_data l.length true,
       call.on_object_tracking_data view.web (some l) st.trk_data l.length true] ++
      [call.set_recognition_mode recognition_mode.TRACKING,
       call.set_tracking_rois (trackingRois l l.length) l.length,
       call.apply_changes], by simp⟩
  · intro l _ _ _ _ _ _
    exact ⟨[call.query_localization_result] ++
      [call.on_object_tracking_data view.console (some l) st.trk_data l.length true,
       call.on_object_tracking_data view.web (some l) st.trk_data l.length true] ++
      [call.set_recognition_mode recognition_mode.TRACKING,
       call.set_tracking_rois (trackingRois l l.length) l.length,
       call.apply_changes], by simp⟩
  · intros
    exact ⟨_, rfl⟩
  · intro t _ _ _ _ _
    exact ⟨[call.query_tracking_result] ++
      [call.on_object_tracking_data view.console st.loc_data (some t) t.length false,
       call.on_object_tracking_data view.web st.loc_data (some t) t.length false], by simp⟩
  · intros
    exact ⟨_, rfl⟩

theorem step_worker_process (st st1 : State) (r : engine_response)
    (h : step st (action.worker_process r) = some st1) :
    ∃ s, st.worker = worker_pc.popped s ∧ st1 = loop_body st s r := by
  have hex := exit_code_none_of_step st st1 _ h
  have hne : ¬ (st.exit_code.isSome = true) := by simp [hex]
  unfold step at h
  rw [if_neg hne] at h
  simp only at h
  split at h
  · rename_i s hw
    cases h
    exact ⟨s, hw, rfl⟩
  · cases h

/-- C10. In every state the program reaches by steps of its two threads, exactly one of
`is_localize` and `is_tracking` is true, so the test `is_localize || is_tracking` is true, and
every processing step passes the popped sample set to the engine and then releases its colour
and its depth buffer. -/
theorem exactly_one_mode_flag_set (w h : Int) (acts : List action) (st : State)
    (hr : run (init w h) acts = some st) :
    ((st.is_localize = true ∧ st.is_tracking = false) ∨
      (st.is_localize = false ∧ st.is_tracking = true)) ∧
    (st.is_localize || st.is_tracking) = true ∧
    ∀ (r : engine_response) (st1 : State), step st (action.worker_process r) = some st1 →
      ∃ (s : correlated_sample_set) (c d : image) (rest : List call),
        st.worker = worker_pc.popped s ∧ s = { color := some c, depth := some d } ∧
        st1.calls = st.calls ++
          [call.process_sample_set s, call.release c, call.release d] ++ rest := by
  have hI := inv_reachable w h st acts hr
  have hg : (st.is_localize || st.is_tracking) = true := by
    rcases hI.mode_valid with hm | hm <;> simp [hm.1, hm.2]
  refine ⟨hI.mode_valid, hg, ?_⟩
  intro r st1 hs
  obtain ⟨s, hw, e⟩ := step_worker_process st st1 r hs
  obtain ⟨c, d, hcd⟩ := hI.nonnull s (Or.inr hw)
  obtain ⟨rest, hrest⟩ := loop_body_calls_start st s r hg
  refine ⟨s, c, d, rest, hw, hcd, ?_⟩
  rw [e, hrest, hcd]
  simp [release_calls]

theorem step_enqueue (st st1 : State) (h : step st action.enqueue = some st1) :
    ∃ s st2, st.main = main_pc.at_enqueue s ∧ enqueue st s = some st2 ∧
      st1 = { st2 with main := main_pc.at_publish s (!st.is_or_processing_frame) } := by
  have hex := exit_code_none_of_step st st1 _ h
  have hne : ¬ (st.exit_code.isSome = true) := by simp [hex]
  unfold step at h
  rw [if_neg hne] at h
  simp only at h
  split at h
  · rename_i s hm
    cases he : enqueue st s with
    | none => simp [he] at h
    | some st2 =>
      simp only [he, Option.map_some', Option.some.injEq] at h
      exact ⟨s, st2, hm, he, h.symm⟩
  · cases h

theorem enqueue_idle (st st2 : State) (s : correlated_sample_set)
    (hf : st.is_or_processing_frame = false) (he : enqueue st s = some st2) :
    ∃ c d, s = { color := some c, depth := some d } ∧
      st2 = { st with is_or_processing_frame := true,
                      calls := st.calls ++ [call.add_ref c, call.add_ref d],
                      sample_set_queue := st.sample_set_queue ++ [s] } := by
  unfold enqueue at he
  rw [hf] at he
  simp only [Bool.not_false, if_true] at he
  obtain ⟨c, d⟩ := s
  cases c with
  | none => simp at he
  | some c =>
    cases d with
    | none => simp at he
    | some d =>
      simp only [Option.some.injEq] at he
      exact ⟨c, d, rfl, he.symm⟩

theorem enqueue_busy (st st2 : State) (s : correlated_sample_set)
    (hf : st.is_or_processing_frame = true) (he : enqueue st s = some st2) : st2 = st := by
  unfold enqueue at he
  rw [hf] at he
  simp only [Bool.not_true, Bool.false_eq_true, if_false, Option.some.injEq] at he
  exact he.symm

/-- C3, as amended. In every state the program reaches, the `add_ref` calls made on a
buffer are its `release` calls plus its occurrences in the sample sets that are queued or
popped and not yet processed: each such set carries exactly one reference per buffer and no
reference is released twice. An enqueue step that finds the flag clear pushes the set after
one `add_ref` on its colour buffer and one on its depth buffer; a processing step releases
each buffer of the popped set once, whatever the engine answers, and adds no reference. -/
theorem references_balance_with_outstanding_frames (w h : Int) (acts : List action) (st : State)
    (hr : run (init w h) acts = some st) :
    (∀ i, added st i = released st i + (outstanding st).count i) ∧
    (∀ st1 : State, step st action.enqueue = some st1 → st.is_or_processing_frame = false →
      ∃ c d : image,
        st1.sample_set_queue = st.sample_set_queue ++ [{ color := some c, depth := some d }] ∧
        st1.calls = st.calls ++ [call.add_ref c, call.add_ref d]) ∧
    (∀ (r : engine_response) (st1 : State), step st (action.worker_process r) = some st1 →
      ∃ s : correlated_sample_set, st.worker = worker_pc.popped s ∧
        ∀ i, released st1 i = released st i + (buffers s).count i ∧ added st1 i = added st i) := by
  have hI := inv_reachable w h st acts hr
  refine ⟨hI.refs, ?_, ?_⟩
  · intro st1 hs hf
    obtain ⟨s, st2, _, he, e⟩ := step_enqueue st st1 hs
    obtain ⟨c, d, hcd, e2⟩ := enqueue_idle st st2 s hf he
    refine ⟨c, d, ?_, ?_⟩
    · rw [e, e2, hcd]
    · rw [e, e2]
  · intro r st1 hs
    obtain ⟨s, hw, e⟩ := step_worker_process st st1 r hs
    have hg : (st.is_localize || st.is_tracking) = true := by
      rcases hI.mode_valid with hm | hm <;> simp [hm.1, hm.2]
    refine ⟨s, hw, fun i => ?_⟩
    rw [e]
    exact ⟨loop_body_released st s r i hg, loop_body_added st s r i⟩

theorem enqueue_exit_code (st st2 : State) (s : correlated_sample_set)
    (he : enqueue st s = some st2) : st2.exit_code = st.exit_code := by
  cases hf : st.is_or_processing_frame
  · obtain ⟨c, d, _, e⟩ := enqueue_idle st st2 s hf he
    rw [e]
  · rw [enqueue_busy st st2 s hf he]

/-- C6. A step of a running program either leaves the process running, or ends it with
code 0, which only the return of `main` after an exit request does, or ends it with code 1,
which only a rejected startup configuration (with no call after that `apply_changes`, the
worker not started and nothing queued) and a rejected commit in `setTracking` do. After an
exit request the return of `main` is possible and gives code 0. -/
theorem exit_code_is_zero_or_one (w h : Int) (acts : List action) (st : State) (a : action)
    (st1 : State) (hr : run (init w h) acts = some st) (hs : step st a = some st1) :
    st.exit_code = none ∧
    ((st1.exit_code = some 0 ∧ a = action.finish ∧ st.is_exit = true) ∨
     (st1.exit_code = some 1 ∧ ∃ ap, a = action.startup ap ∧ ap ≠ status_no_error ∧
        st1.calls =
          [call.init_camera,
           call.set_recognition_mode recognition_mode.LOCALIZATION,
           call.set_localization_mechanism localization_mechanism.CNN,
           call.set_recognition_confidence 7 10,
           call.apply_changes] ∧
        st1.worker = worker_pc.not_started ∧ st1.sample_set_queue = []) ∨
     (st1.exit_code = some 1 ∧ ∃ r, a = action.worker_process r ∧ st.is_localize = true ∧
        localized r ∧ r.apply_status ≠ status_no_error) ∨
     (st1.exit_code = none ∧ a ≠ action.finish ∧
        (∀ ap, a = action.startup ap → ap = status_no_error) ∧
        (∀ r, a = action.worker_process r →
          ¬ (st.is_localize = true ∧ localized r ∧ r.apply_status ≠ status_no_error)))) ∧
    (st.main = main_pc.stopping →
      ∃ st2, step st action.finish = some st2 ∧ st2.exit_code = some 0) := by
  have hI := inv_reachable w h st acts hr
  have hex := exit_code_none_of_step st st1 a hs
  have hne : ¬ (st.exit_code.isSome = true) := by simp [hex]
  refine ⟨hex, ?_, ?_⟩
  · unfold step at hs
    rw [if_neg hne] at hs
    cases a with
    | startup ap =>
      simp only at hs
      split at hs
      · rename_i hm
        cases hs
        obtain ⟨hw, hc⟩ := hI.fresh hm
        have hq : st.sample_set_queue = [] := by
          have h2 := hI.at_most_one
          by_cases hf : st.is_or_processing_frame = false
          · exact (hI.flag_clear hf).1
          · have hmem := hI.nonnull
            cases hq : st.sample_set_queue with
            | nil => rfl
            | cons x rest =>
              exfalso
              have h4 := hI.refs
              obtain ⟨c, d, hx⟩ := hmem x (Or.inl (by rw [hq]; exact List.mem_cons_self _ _))
              have := h4 c
              simp [added, released, hc, outstanding, hq, queued_buffers, hx, buffers] at this
        by_cases hap : ap = status_no_error
        · right
          right
          right
          refine ⟨(by simp [startup, hap, hex]), (by simp), fun ap' e => ?_, fun r e => (by cases e)⟩
          cases e
          exact hap
        · right
          left
          refine ⟨by simp [startup, hap], ap, rfl, hap, ?_, ?_, ?_⟩
          · simp [startup, hap, hc]
          · simp [startup, hap, hw]
          · simp [startup, hap, hq]
      · cases hs
    | poll b =>
      simp only at hs
      split at hs
      · cases hs
        right
        right
        right
        exact ⟨hex, (by simp), fun ap e => (by cases e), fun r e => (by cases e)⟩
      · cases hs
    | acquire s =>
      simp only at hs
      split at hs
      · cases hs
        right
        right
        right
        exact ⟨hex, (by simp), fun ap e => (by cases e), fun r e => (by cases e)⟩
      · cases hs
    | enqueue =>
      simp only at hs
      split at hs
      · rename_i s hm
        cases he : enqueue st s with
        | none => simp [he] at hs
        | some st2 =>
          simp only [he, Option.map_some', Option.some.injEq] at hs
          subst hs
          right
          right
          right
          refine ⟨?_, (by simp), fun ap e => (by cases e), fun r e => (by cases e)⟩
          show st2.exit_code = none
          rw [enqueue_exit_code st st2 s he, hex]
      · cases hs
    | publish =>
      simp only at hs
      split at hs
      · rename_i s p hm
        unfold publish at hs
        cases hc : s.color with
        | none => simp [hc] at hs
        | some c =>
          simp only [hc, Option.map_some', Option.some.injEq] at hs
          subst hs
          right
          right
          right
          exact ⟨hex, (by simp), fun ap e => (by cases e), fun r e => (by cases e)⟩
      · cases hs
    | finish =>
      simp only at hs
      split at hs
      · rename_i hm
        cases hs
        left
        exact ⟨rfl, rfl, hI.stopping hm⟩
      · cases hs
    | worker_pop =>
      simp only at hs
      split at hs
      · split at hs
        · cases hs
          right
          right
          right
          exact ⟨hex, (by simp), fun ap e => (by cases e), fun r e => (by cases e)⟩
        · split at hs
          · cases hs
            right
            right
            right
            exact ⟨hex, (by simp), fun ap e => (by cases e), fun r e => (by cases e)⟩
          · cases hs
      · cases hs
    | worker_process r =>
      simp only at hs
      split at hs
      · rename_i s hw
        cases hs
        by_cases hc : st.is_localize = true ∧ localized r ∧ r.apply_status ≠ status_no_error
        · right
          right
          left
          exact ⟨(loop_body_exit_code st s r).1 hc.1 hc.2.1 hc.2.2, r, rfl, hc⟩
        · right
          right
          right
          refine ⟨?_, (by simp), fun ap e => (by cases e), fun r' e => ?_⟩
          · rw [(loop_body_exit_code st s r).2 hc, hex]
          · cases e
            exact hc
      · cases hs
    | worker_clear =>
      simp only at hs
      split at hs
      · cases hs
        right
        right
        right
        refine ⟨?_, (by simp), fun ap e => (by cases e), fun r e => (by cases e)⟩
        rw [clear_flag_exit_code, hex]
      · cases hs
  · intro hm
    refine ⟨{ st with calls := st.calls ++ [call.stop_camera],
                      main := main_pc.returned,
                      exit_code := some 0 }, ?_, rfl⟩
    unfold step
    rw [if_neg hne]
    simp only [hm]

/-! ## One iteration of the main loop among the steps of the worker -/

theorem step_keeps_at_enqueue (st st1 : State) (s : correlated_sample_set) (a : action)
    (hm : st.main = main_pc.at_enqueue s) (h : step st a = some st1)
    (ha : a ≠ action.enqueue) : st1.main = main_pc.at_enqueue s := by
  have hex := exit_code_none_of_step st st1 a h
  have hne : ¬ (st.exit_code.isSome = true) := by simp [hex]
  unfold step at h
  rw [if_neg hne] at h
  cases a with
  | startup ap => simp [hm] at h
  | poll b => simp [hm] at h
  | acquire s2 => simp [hm] at h
  | enqueue => exact absurd rfl ha
  | publish => simp [hm] at h
  | finish => simp [hm] at h
  | worker_pop =>
    simp only at h
    split at h
    · split at h
      · cases h
        exact hm
      · split at h
        · cases h
          exact hm
        · cases h
    · cases h
  | worker_process r =>
    simp only at h
    split at h
    · rename_i s2 _
      cases h
      rcases loop_body_main st s2 r with e | e
      · rw [e, hm]
      · rw [e, hm]
        rfl
    · cases h
  | worker_clear =>
    simp only at h
    split at h
    · cases h
      unfold clear_flag
      split <;> exact hm
    · cases h

theorem step_keeps_at_publish (st st1 : State) (s : correlated_sample_set) (p : Bool)
    (a : action) (hm : st.main = main_pc.at_publish s p) (h : step st a = some st1)
    (ha : a ≠ action.publish) (hp : p = false ∨ ∀ r, a ≠ action.worker_process r) :
    st1.main = main_pc.at_publish s p := by
  have hex := exit_code_none_of_step st st1 a h
  have hne : ¬ (st.exit_code.isSome = true) := by simp [hex]
  unfold step at h
  rw [if_neg hne] at h
  cases a with
  | startup ap => simp [hm] at h
  | poll b => simp [hm] at h
  | acquire s2 => simp [hm] at h
  | enqueue => simp [hm] at h
  | publish => exact absurd rfl ha
  | finish => simp [hm] at h
  | worker_pop =>
    simp only at h
    split at h
    · split at h
      · cases h
        exact hm
      · split at h
        · cases h
          exact hm
        · cases h
    · cases h
  | worker_process r =>
    rcases hp with hp | hp
    · simp only at h
      split at h
      · rename_i s2 _
        cases h
        rcases loop_body_main st s2 r with e | e
        · rw [e, hm]
        · rw [e, hm, hp]
          rfl
      · cases h
    · exact absurd rfl (hp r)
  | worker_clear =>
    simp only at h
    split at h
    · cases h
      unfold clear_flag
      split <;> exact hm
    · cases h

/-- C5, as amended. In a running process: after `get_sample_set` the test of line 205 is
next; when that test finds the flag set, the enqueue step pushes nothing, makes no call and
leaves the flag alone; when it finds the flag clear, the step sets the flag, calls `add_ref`
once on the colour and once on the depth buffer and pushes the set. When the read of line 217
finds a colour buffer in the set, the publish step sends it to the web view with time stamp
10 and the colour width and height. Between these steps the steps of the worker leave the
set the main thread holds as acquired, except the loop body run on a set pushed in this
iteration. -/
theorem main_loop_pushes_only_when_test_finds_flag_clear (st : State)
    (hrun : st.exit_code = none) :
    (∀ s, st.main = main_pc.at_acquire →
      step st (action.acquire s) = some
        { st with calls := st.calls ++ [call.get_sample_set], main := main_pc.at_enqueue s }) ∧
    (∀ s, st.main = main_pc.at_enqueue s → st.is_or_processing_frame = true →
      step st action.enqueue = some { st with main := main_pc.at_publish s false }) ∧
    (∀ (s : correlated_sample_set) (c d : image), st.main = main_pc.at_enqueue s →
      st.is_or_processing_frame = false → s.color = some c → s.depth = some d →
      step st action.enqueue = some
        { st with is_or_processing_frame := true,
                  calls := st.calls ++ [call.add_ref c, call.add_ref d],
                  sample_set_queue := st.sample_set_queue ++ [s],
                  main := main_pc.at_publish s true }) ∧
    (∀ (s : correlated_sample_set) (p : Bool) (c : image), st.main = main_pc.at_publish s p →
      s.color = some c →
      step st action.publish = some
        { st with calls := st.calls ++ [call.on_rgb_frame 10 st.imageWidth st.imageHeight c],
                  main := main_pc.loop_head }) ∧
    (∀ (s : correlated_sample_set) (a : action) (st1 : State),
      st.main = main_pc.at_enqueue s → step st a = some st1 → a ≠ action.enqueue →
      st1.main = main_pc.at_enqueue s) ∧
    (∀ (s : correlated_sample_set) (p : Bool) (a : action) (st1 : State),
      st.main = main_pc.at_publish s p → step st a = some st1 → a ≠ action.publish →
      (p = false ∨ ∀ r, a ≠ action.worker_process r) →
      st1.main = main_pc.at_publish s p) := by
  have hne : ¬ (st.exit_code.isSome = true) := by simp [hrun]
  refine ⟨?_, ?_, ?_, ?_, ?_, ?_⟩
  · intro s hm
    unfold step
    rw [if_neg hne]
    simp only [hm]
  · intro s hm hf
    unfold step
    rw [if_neg hne]
    simp [hm, enqueue, hf]
  · intro s c d hm hf hc hd
    unfold step
    rw [if_neg hne]
    simp [hm, enqueue, hf, hc, hd]
  · intro s p c hm hc
    unfold step
    rw [if_neg hne]
    simp [hm, publish, hc]
  · intro s a st1 hm h ha
    exact step_keeps_at_enqueue st st1 s a hm h ha
  · intro s p a st1 hm h ha hp
    exact step_keeps_at_publish st st1 s p a hm h ha hp

/-! ## The set shared by the two threads -/

theorem shares_step (st st1 : State) (a : action) (hI : Inv st) (hS : shares_pushed_set st)
    (h : step st a = some st1) : shares_pushed_set st1 := by
  have hex := exit_code_none_of_step st st1 a h
  have hne : ¬ (st.exit_code.isSome = true) := by simp [hex]
  unfold step at h
  rw [if_neg hne] at h
  cases a with
  | startup ap =>
    simp only at h
    split at h
    · cases h
      intro s hm
      by_cases hap : ap = status_no_error <;> simp [startup, hap] at hm
    · cases h
  | poll b =>
    simp only at h
    split at h
    · cases h
      intro s hm
      cases b <;> simp at hm
    · cases h
  | acquire s0 =>
    simp only at h
    split at h
    · cases h
      intro s hm
      simp at hm
    · cases h
  | enqueue =>
    simp only at h
    split at h
    · rename_i s0 hm0
      cases he : enqueue st s0 with
      | none => simp [he] at h
      | some st2 =>
        simp only [he, Option.map_some', Option.some.injEq] at h
        subst h
        intro s hm
        simp only [main_pc.at_publish.injEq] at hm
        obtain ⟨hs, hp⟩ := hm
        have hf : st.is_or_processing_frame = false := by simpa using hp
        obtain ⟨c, d, _, e2⟩ := enqueue_idle st st2 s0 hf he
        obtain ⟨hq, hh⟩ := hI.flag_clear hf
        subst e2
        subst hs
        constructor
        · intro s1 h1
          simpa [hq] using h1
        · intro s2 h2
          have h2' : st.worker = worker_pc.popped s2 := h2
          rw [holding, h2'] at hh
          cases hh
    · cases h
  | publish =>
    simp only at h
    split at h
    · rename_i s0 p hm0
      unfold publish at h
      cases hc : s0.color with
      | none => simp [hc] at h
      | some c =>
        simp only [hc, Option.map_some', Option.some.injEq] at h
        subst h
        intro s hm
        simp at hm
    · cases h
  | finish =>
    simp only at h
    split at h
    · cases h
      intro s hm
      simp at hm
    · cases h
  | worker_pop =>
    simp only at h
    split at h
    · split at h
      · cases h
        intro s hm
        refine ⟨(hS s hm).1, fun s2 h2 => ?_⟩
        simp at h2
      · split at h
        · rename_i s0 rest hq
          cases h
          have hq' := blocking_queue_pop_some _ _ _ hq
          intro s hm
          have hS' := (hS s hm).1
          constructor
          · intro s1 h1
            exact hS' s1 (by rw [hq']; exact List.mem_cons_of_mem _ h1)
          · intro s2 h2
            simp only [worker_pc.popped.injEq] at h2
            subst h2
            exact hS' s0 (by rw [hq']; exact List.mem_cons_self _ _)
        · cases h
    · cases h
  | worker_process r =>
    simp only at h
    split at h
    · rename_i s0 hw
      cases h
      intro s hm
      obtain ⟨ret, hret⟩ := loop_body_worker st s0 r
      have hq : st.sample_set_queue = [] := by
        have h2 := hI.at_most_one
        have : holding st = 1 := by simp [holding, hw]
        rw [this] at h2
        exact List.length_eq_zero.mp (by omega)
      constructor
      · intro s1 h1
        rw [loop_body_sample_set_queue, hq] at h1
        cases h1
      · intro s2 h2
        rw [hret] at h2
        cases h2
    · cases h
  | worker_clear =>
    simp only at h
    split at h
    · rename_i ret hw
      cases h
      intro s hm
      have hm' : st.main = main_pc.at_publish s true := by
        unfold clear_flag at hm
        split at hm <;> exact hm
      constructor
      · intro s1 h1
        have : s1 ∈ st.sample_set_queue := by
          unfold clear_flag at h1
          split at h1 <;> exact h1
        exact (hS s hm').1 s1 this
      · intro s2 h2
        unfold clear_flag at h2
        split at h2 <;> cases h2
    · cases h

/-- In every state the program reaches, when the main thread is about to read a set it
pushed in this iteration, every queued set and the set the worker has popped are that set. -/
theorem pushed_set_is_the_outstanding_one (w h : Int) (acts : List action) (st : State)
    (hr : run (init w h) acts = some st) : shares_pushed_set st := by
  have key : ∀ (acts : List action) (st0 st1 : State), Inv st0 → shares_pushed_set st0 →
      run st0 acts = some st1 → shares_pushed_set st1 := by
    intro acts
    induction acts with
    | nil =>
      intro st0 st1 _ hS h
      simp only [run, Option.some.injEq] at h
      subst h
      exact hS
    | cons a rest ih =>
      intro st0 st1 hI hS h
      simp only [run] at h
      cases hs : step st0 a with
      | none => simp [hs] at h
      | some st2 =>
        rw [hs] at h
        exact ih st2 st1 (inv_step st0 st2 a hI hs) (shares_step st0 st2 a hI hS hs) h
  refine key acts (init w h) st (inv_init w h) ?_ hr
  intro s hm
  cases hm

/-! ## Runs on the example inputs -/

theorem run_push_run : run (init 640 480) push_run = some pushed_state := rfl

theorem run_pop_run : run (init 640 480) (push_run ++ [action.worker_pop]) = some popped_state :=
  rfl

theorem run_exit_run : run (init 640 480) exit_run = some exit_requested_state := rfl

theorem run_leak_run : run (init 640 480) leak_run = some leak_state := rfl

theorem localized_found_response : localized found_response :=
  ⟨rfl, rfl, [demo_region], rfl, by simp⟩

theorem localized_rejected_response : localized rejected_response :=
  ⟨rfl, rfl, [demo_region], rfl, by simp⟩

/-- C1, counterexample. The first iteration of the worker processes a frame, the
localization query succeeds with one region, and the commit of `setTracking` is rejected:
the mode is still LOCALIZATION and the process has exited with code 1. -/
theorem rejected_commit_leaves_mode_localization :
    worker_stopped (worker_start 640 480) = false ∧
    localized rejected_response ∧
    mode (worker_iteration (worker_start 640 480) demo_frame_1 rejected_response) =
      some recognition_mode.LOCALIZATION ∧
    (worker_iteration (worker_start 640 480) demo_frame_1 rejected_response).exit_code = some 1 :=
  ⟨rfl, localized_rejected_response, rfl, rfl⟩

/-- Witness of C1: on the first frame, localized and committed, the mode becomes TRACKING. -/
theorem mode_changes_on_first_frame_example :
    mode (worker_start 640 480) = some recognition_mode.LOCALIZATION ∧
    mode (worker_iteration (run_object_tracking (worker_start 640 480) []) demo_frame_1
      found_response) = some recognition_mode.TRACKING :=
  have h := mode_changes_only_at_first_committed_localization 640 480 [] demo_frame_1
    found_response
  ⟨h.1, (h.2.2.2.1 h.1).1.mpr ⟨localized_found_response, rfl⟩⟩

/-- Witness of C2: after the first push one sample set is outstanding and the flag is set. -/
theorem at_most_one_frame_outstanding_example :
    run (init 640 480) push_run = some pushed_state ∧
    (pushed_state.sample_set_queue.length + holding pushed_state ≤ 1 ∧
      (pushed_state.is_or_processing_frame = false →
        pushed_state.sample_set_queue = [] ∧ holding pushed_state = 0)) :=
  ⟨rfl, at_most_one_frame_outstanding 640 480 push_run pushed_state rfl⟩

/-- Once the worker has returned with the flag set, no step adds or releases a reference. -/
theorem dead_worker_step (st st1 : State) (a : action) (hw : st.worker = worker_pc.returned)
    (hm : st.main ≠ main_pc.start) (hf : st.is_or_processing_frame = true)
    (h : step st a = some st1) :
    st1.worker = worker_pc.returned ∧ st1.main ≠ main_pc.start ∧
    st1.is_or_processing_frame = true ∧
    ∀ i, added st1 i = added st i ∧ released st1 i = released st i := by
  have hex := exit_code_none_of_step st st1 a h
  have hne : ¬ (st.exit_code.isSome = true) := by simp [hex]
  unfold step at h
  rw [if_neg hne] at h
  cases a with
  | startup ap =>
    cases hs : st.main with
    | start => exact absurd hs hm
    | _ => simp [hs] at h
  | poll b =>
    simp only at h
    split at h
    · cases h
      refine ⟨hw, ?_, hf, fun i => ?_⟩
      · cases b <;> simp
      · simp [added, released, List.count_append, List.count_cons]
    · cases h
  | acquire s =>
    simp only at h
    split at h
    · cases h
      refine ⟨hw, by simp, hf, fun i => ?_⟩
      simp [added, released, List.count_append, List.count_cons]
    · cases h
  | enqueue =>
    simp only at h
    split at h
    · rename_i s _
      cases he : enqueue st s with
      | none => simp [he] at h
      | some st2 =>
        simp only [he, Option.map_some', Option.some.injEq] at h
        subst h
        rw [enqueue_busy st st2 s hf he]
        exact ⟨hw, by simp, hf, fun i => ⟨rfl, rfl⟩⟩
    · cases h
  | publish =>
    simp only at h
    split at h
    · rename_i s p _
      unfold publish at h
      cases hc : s.color with
      | none => simp [hc] at h
      | some c =>
        simp only [hc, Option.map_some', Option.some.injEq] at h
        subst h
        refine ⟨hw, by simp, hf, fun i => ?_⟩
        simp [added, released, List.count_append, List.count_cons]
    · cases h
  | finish =>
    simp only at h
    split at h
    · cases h
      refine ⟨hw, by simp, hf, fun i => ?_⟩
      simp [added, released, List.count_append, List.count_cons]
    · cases h
  | worker_pop =>
    simp only at h
    split at h
    · rename_i hl
      rw [hw] at hl
      cases hl
    · cases h
  | worker_process r =>
    simp only at h
    split at h
    · rename_i s hp
      rw [hw] at hp
      cases hp
    · cases h
  | worker_clear =>
    simp only at h
    split at h
    · rename_i ret hc
      rw [hw] at hc
      cases hc
    · cases h

theorem dead_worker_run (st st1 : State) (acts : List action)
    (hw : st.worker = worker_pc.returned) (hm : st.main ≠ main_pc.start)
    (hf : st.is_or_processing_frame = true) (h : run st acts = some st1) :
    ∀ i, added st1 i = added st i ∧ released st1 i = released st i := by
  induction acts generalizing st with
  | nil =>
    simp only [run, Option.some.injEq] at h
    subst h
    exact fun i => ⟨rfl, rfl⟩
  | cons a rest ih =>
    simp only [run] at h
    cases hs : step st a with
    | none => simp [hs] at h
    | some st2 =>
      rw [hs] at h
      obtain ⟨hw2, hm2, hf2, hc2⟩ := dead_worker_step st st2 a hw hm hf hs
      intro i
      have := ih st2 hw2 hm2 hf2 h i
      rw [this.1, this.2]
      exact hc2 i

/-- C3, counterexample. The worker returns on a processing failure of the first frame and
the main loop then pushes the second one: the reference added to buffer 20 is not released
in the state reached, nor in any state that any further steps lead to. And when `main`
returns on an exit request while the first frame is still queued, the process ends with code
0 and the reference added to buffer 10 unreleased. -/
theorem frame_pushed_after_worker_return_is_never_released :
    run (init 640 480) leak_run = some leak_state ∧
    leak_state.worker = worker_pc.returned ∧
    leak_state.sample_set_queue = [demo_frame_2] ∧
    added leak_state 20 = 1 ∧ released leak_state 20 = 0 ∧
    (∀ (acts : List action) (st : State), run leak_state acts = some st →
      added st 20 = 1 ∧ released st 20 = 0) ∧
    (run (init 640 480) exit_leak_run).map
        (fun st => (st.exit_code, st.sample_set_queue, added st 10, released st 10)) =
      some (some 0, [demo_frame_1], 1, 0) := by
  refine ⟨rfl, rfl, rfl, by decide, by decide, ?_, by decide⟩
  intro acts st h
  have := dead_worker_run leak_state st acts rfl (by decide) rfl h 20
  rw [this.1, this.2]
  exact ⟨by decide, by decide⟩

/-- Witness of C3: in the state after the first push and pop, the processing step releases
buffer 10 once. -/
theorem references_balance_example :
    run (init 640 480) (push_run ++ [action.worker_pop]) = some popped_state ∧
    (∀ i, added popped_state i = released popped_state i + (outstanding popped_state).count i) :=
  ⟨rfl, (references_balance_with_outstanding_frames 640 480 (push_run ++ [action.worker_pop])
    popped_state rfl).1⟩

/-- Witness of C4: the first frame fails in processing and a second one follows; the worker
pops only one. -/
theorem worker_stops_at_first_failure_example :
    iteration_fails (run_object_tracking (worker_start 640 480) []) failing_response ∧
    (worker_trace (worker_start 640 480)
      ([] ++ (demo_frame_1, failing_response) :: [(demo_frame_2, found_response)])).length ≤ 1 :=
  ⟨Or.inl (by decide),
    (worker_stops_at_first_failure 640 480 [] demo_frame_1 failing_response
      [(demo_frame_2, found_response)] (Or.inl (by decide))).1⟩

/-- C5, counterexample. An iteration of the main loop starts with the flag set; the worker
clears the flag before the test of line 205, and the iteration pushes `demo_frame_2` after
one `add_ref` on each of its buffers. And in an iteration that starts with the flag clear,
the worker processes the pushed set before line 217: the colour slot read there is null and
the publish step is not possible. -/
theorem iteration_started_with_flag_set_pushes :
    (run (init 640 480) busy_run).map
        (fun st => (st.main, st.is_or_processing_frame, st.sample_set_queue)) =
      some (main_pc.loop_head, true, []) ∧
    (run (init 640 480) (busy_run ++ overtaken_iteration)).map
        (fun st => (st.main, st.sample_set_queue, added st 20, added st 21)) =
      some (main_pc.loop_head, [demo_frame_2], 1, 1) ∧
    (run (init 640 480) early_process_run).map (fun st => st.main) =
      some (main_pc.at_publish { color := none, depth := none } true) ∧
    run (init 640 480) (early_process_run ++ [action.publish]) = none := by
  refine ⟨by decide, by decide, by decide, by decide⟩

/-- Witness of C5: after the first push the colour slot holds buffer 10 and the publish
step sends it to the web view. -/
theorem publish_example :
    pushed_state.exit_code = none ∧
    pushed_state.main = main_pc.at_publish demo_frame_1 true ∧
    demo_frame_1.color = some 10 ∧
    step pushed_state action.publish = some
      { pushed_state with
        calls := pushed_state.calls ++
          [call.on_rgb_frame 10 pushed_state.imageWidth pushed_state.imageHeight 10],
        main := main_pc.loop_head } :=
  ⟨rfl, rfl, rfl,
    (main_loop_pushes_only_when_test_finds_flag_clear pushed_state rfl).2.2.2.1
      demo_frame_1 true 10 rfl rfl⟩

/-- Witness of C6: after an exit request the return of `main` ends the process and the
state before it has no exit code. -/
theorem exit_code_example :
    run (init 640 480) exit_run = some exit_requested_state ∧
    step exit_requested_state action.finish = some
      { exit_requested_state with
        calls := exit_requested_state.calls ++ [call.stop_camera],
        main := main_pc.returned,
        exit_code := some 0 } ∧
    exit_requested_state.exit_code = none :=
  ⟨rfl, rfl,
    (exit_code_is_zero_or_one 640 480 exit_run exit_requested_state action.finish _ rfl rfl).1⟩

/-- Witness of C7: the iteration on a localized and committed frame ends with the flag
false. -/
theorem flag_clear_example :
    pushed_state.exit_code = none ∧
    (worker_iteration pushed_state demo_frame_1 found_response).exit_code = none ∧
    (worker_iteration pushed_state demo_frame_1 found_response).is_or_processing_frame = false :=
  ⟨rfl, rfl,
    (flag_clear_at_end_of_iteration pushed_state demo_frame_1 found_response rfl).1 rfl⟩

/-- Witness of C8: an iteration in LOCALIZATION whose query returns nothing stops after the
query. -/
theorem localization_empty_example :
    mode pushed_state = some recognition_mode.LOCALIZATION ∧
    (0 : status) = status_no_error ∧
    (worker_iteration pushed_state demo_frame_1
        { failing_response with process_status := 0 }).calls =
      pushed_state.calls ++ [call.process_sample_set demo_frame_1] ++
        release_calls demo_frame_1 ++ [call.query_localization_result] :=
  ⟨rfl, rfl,
    ((localization_results_forwarded_before_transition pushed_state demo_frame_1
      { failing_response with process_status := 0 } rfl rfl rfl).2 (Or.inl rfl)).1⟩

/-- Witness of C9: for the one example region `setTracking` installs one rectangle. -/
theorem setTracking_example :
    [demo_region].length = 1 ∧ 0 < 1 ∧
    ∃ rois : List rect,
      (setTracking pushed_state [demo_region] (1 : Nat) 0).calls = pushed_state.calls ++
        [call.set_recognition_mode recognition_mode.TRACKING,
         call.set_tracking_rois rois (1 : Nat),
         call.apply_changes] ∧
      rois.length = 1 ∧
      ∀ (i : Nat) (d : localization_data), [demo_region][i]? = some d →
        rois[i]? = some (rect.mk d.roi.x d.roi.y d.roi.width d.roi.height) :=
  ⟨rfl, by decide,
    (setTracking_installs_regions_then_commits pushed_state [demo_region] 1 0 rfl
      (by decide)).1⟩

/-- Witness of C10: in the state after the first push and pop exactly one mode flag is
set. -/
theorem exactly_one_mode_flag_example :
    run (init 640 480) (push_run ++ [action.worker_pop]) = some popped_state ∧
    ((popped_state.is_localize = true ∧ popped_state.is_tracking = false) ∨
      (popped_state.is_localize = false ∧ popped_state.is_tracking = true)) :=
  ⟨rfl, (exactly_one_mode_flag_set 640 480 (push_run ++ [action.worker_pop])
    popped_state rfl).1⟩

end OrTutorial3Web
